import Mathlib

/-!
Verification development for the ch8asm two-pass Chip-8 assembler
(crates `ch8asm` / `ch8alib`).

The Rust sources are shallowly embedded: source text is a `List Char`,
machine integers are `Nat` (with explicit `% 2 ^ w` where the code
truncates), fallible paths return sum types, and panics are modelled as a
distinguished outcome.  Every scanning loop of the Rust code is embedded
as a fuel-indexed recursive function; call sites pass `text.length + 2`
fuel, which dominates the number of iterations any of the loops can make
because each iteration advances the scan position.  A loop that makes no
progress (as the `Assembler::assemble` driving loop does on an unhandled
token kind) exhausts every fuel value, which is how non-termination of
the original `while` loop is expressed.
-/

namespace Ch8

/-- Rust `char::is_ascii_whitespace`: space, tab, LF, form feed, CR. -/
def isAsciiWhitespace (c : Char) : Bool :=
  c.toNat = 32 || c.toNat = 9 || c.toNat = 10 || c.toNat = 12 || c.toNat = 13

/-- Rust `char::is_ascii_alphabetic`. -/
def isAsciiAlphabetic (c : Char) : Bool :=
  (65 ≤ c.toNat && c.toNat ≤ 90) || (97 ≤ c.toNat && c.toNat ≤ 122)

/-- Rust `char::is_ascii_digit`. -/
def isAsciiDigit (c : Char) : Bool :=
  48 ≤ c.toNat && c.toNat ≤ 57

/-- Rust `char::is_ascii_hexdigit`. -/
def isAsciiHexdigit (c : Char) : Bool :=
  isAsciiDigit c || (65 ≤ c.toNat && c.toNat ≤ 70) || (97 ≤ c.toNat && c.toNat ≤ 102)

/-- Rust `char::to_ascii_uppercase`. -/
def asciiUpper (c : Char) : Char :=
  if 97 ≤ c.toNat ∧ c.toNat ≤ 122 then Char.ofNat (c.toNat - 32) else c

/-- Uppercase every character of a string (ASCII case mapping). -/
def upperText (t : String) : String :=
  ⟨t.data.map asciiUpper⟩

/-- util/constants.rs: `MEM_START`. -/
def MEM_START : Nat := 0x0200

/-- util/constants.rs: `COMMENT_CHAR`. -/
def COMMENT_CHAR : Char := ';'

/-- util/constants.rs: `DEC_LIT_CHAR`. -/
def DEC_LIT_CHAR : Char := '#'

/-- util/constants.rs: `HEX_LIT_CHAR`. -/
def HEX_LIT_CHAR : Char := '$'

/-- util/constants.rs: `BIN_LIT_CHAR`. -/
def BIN_LIT_CHAR : Char := '%'

/-- lex/token_type.rs: `TokenType`. -/
inductive TokenType where
  | Instruction
  | Label
  | LblDef
  | Register
  | DecLit
  | HexLit
  | BinLit
  | SkipCond
  | Comma
  | Period
  | EndOfInput
deriving DecidableEq, Repr

/-- error/variant_error.rs: `VariantError` (expected tag / found tag). -/
structure VariantError where
  expected : String
  found : String
deriving DecidableEq, Repr

/-- util/variant.rs: `Variant` — `Byte` is a `u8`, `Word` a `u16`. -/
inductive Variant where
  | Byte (b : Nat)
  | Word (w : Nat)
  | Text (t : String)
deriving DecidableEq, Repr

/-- util/variant.rs: `Variant::as_byte`. -/
def Variant.as_byte : Variant → Except VariantError Nat
  | .Byte b => .ok b
  | .Word _ => .error ⟨"byte", "word"⟩
  | .Text _ => .error ⟨"byte", "text"⟩

/-- util/variant.rs: `Variant::as_word`. -/
def Variant.as_word : Variant → Except VariantError Nat
  | .Word w => .ok w
  | .Byte _ => .error ⟨"word", "byte"⟩
  | .Text _ => .error ⟨"word", "text"⟩

/-- util/variant.rs: `Variant::as_text`. -/
def Variant.as_text : Variant → Except VariantError String
  | .Text t => .ok t
  | .Byte _ => .error ⟨"text", "byte"⟩
  | .Word _ => .error ⟨"text", "word"⟩

/-- lex/token.rs: `Token`. -/
structure Token where
  ttype : TokenType
  value : Variant
deriving DecidableEq, Repr

/-- error/lexer_error.rs: `LexerError` (line, column, offending character). -/
structure LexerError where
  line : Nat
  col : Nat
  chr : Char
deriving DecidableEq, Repr

/-- error/parse_error.rs: `ParseError`. -/
structure ParseError where
  expected : TokenType
  actual : TokenType
  line : Nat
  col : Nat
deriving DecidableEq, Repr

/-- error/opcode_error.rs: `OpcodeError`. -/
structure OpcodeError where
  bad_instr : String
  line : Nat
  col : Nat
deriving DecidableEq, Repr

/-- error/addr_error.rs: `AddrError`. -/
structure AddrError where
  label : String
deriving DecidableEq, Repr

/-- ch8_isa `data::Register` (external crate, interface boundary). -/
inductive Register where
  | I
  | V0 | V1 | V2 | V3 | V4 | V5 | V6 | V7
  | V8 | V9 | VA | VB | VC | VD | VE | VF
deriving DecidableEq, Repr

/-- error/arg_error.rs: `ArgError` (bad register, instruction name, position). -/
structure ArgError where
  bad_arg : Register
  instr : String
  line : Nat
  col : Nat
deriving DecidableEq, Repr

/-- ch8_isa `data::SkipType` (external crate, interface boundary). -/
inductive SkipType where
  | Equals
  | NotEquals
  | KeyDown
  | KeyUp
deriving DecidableEq, Repr

/-- error/skip_error.rs: `SkipError` (offending skip type, position). -/
structure SkipError where
  stype : SkipType
  line : Nat
  col : Nat
deriving DecidableEq, Repr

/-- error/asm_error.rs: `AsmError`.  The snapshot of the enum under src/
lists the Lexer/Parser/Opcode arms; the Argument, Skip, Address and Binary
arms are forced by their construction sites in codegen/assembler.rs.  The
Binary arm wraps an error of the external encoder, which this development
models as total, so the arm is never produced. -/
inductive AsmError where
  | Lexer (e : LexerError)
  | Parser (e : ParseError)
  | Opcode (e : OpcodeError)
  | Argument (e : ArgError)
  | Skip (e : SkipError)
  | Address (e : AddrError)
  | Binary
deriving DecidableEq, Repr

/-- codegen/addr_table.rs: `AddrTable`.  The `HashMap` is modelled as an
association list in which `add_entry` prepends and lookups read the most
recent binding, which reproduces the map's overwrite-on-insert semantics
for `has_entry`/`get_entry`.  As in the source, `size` counts calls to
`add_entry`, not distinct keys. -/
structure AddrTable where
  size : Nat
  data : List (String × Nat)
deriving DecidableEq, Repr

/-- codegen/addr_table.rs: `AddrTable::new`. -/
def AddrTable.new : AddrTable := ⟨0, []⟩

/-- codegen/addr_table.rs: `AddrTable::add_entry`. -/
def AddrTable.add_entry (t : AddrTable) (label : String) (addr : Nat) : AddrTable :=
  ⟨t.size + 1, (label, addr) :: t.data⟩

/-- codegen/addr_table.rs: `AddrTable::has_entry`. -/
def AddrTable.has_entry (t : AddrTable) (label : String) : Bool :=
  (t.data.lookup label).isSome

/-- codegen/addr_table.rs: `AddrTable::get_entry`. -/
def AddrTable.get_entry (t : AddrTable) (label : String) : Except AddrError Nat :=
  match t.data.lookup label with
  | some a => .ok a
  | none => .error ⟨label⟩

/-- lex/asm_lexer.rs: `AsmLexer` state.  `text` is the character sequence
of the source (`chars().nth` indexing). -/
structure AsmLexer where
  text : List Char
  pos : Nat
  cur_char : Char
  line : Nat
  col : Nat
deriving DecidableEq, Repr

/-- lex/asm_lexer.rs: `AsmLexer::new`.  `new_text.chars().nth(0).unwrap()`
panics on an empty source, modelled as `none`. -/
def AsmLexer.new (new_text : List Char) : Option AsmLexer :=
  match new_text.get? 0 with
  | none => none
  | some c => some ⟨new_text, 0, c, 1, 1⟩

/-- lex/asm_lexer.rs: `AsmLexer::advance`.  Nat subtraction in
`text.length - 1` truncates at zero exactly as the reachable states allow
(the constructor guarantees a non-empty `text`). -/
def AsmLexer.advance (s : AsmLexer) : AsmLexer :=
  let pos := s.pos + 1
  if pos > s.text.length - 1 then
    { s with pos := pos, cur_char := '\x00' }
  else
    { s with pos := pos, col := s.col + 1, cur_char := s.text.getD pos '\x00' }

/-- lex/asm_lexer.rs: `AsmLexer::skip_whitespace` (fuel-indexed `loop`).
On LF/CR the source advances once inside the newline branch and once more
at the bottom of the loop body. -/
def AsmLexer.skip_whitespace : Nat → AsmLexer → AsmLexer
  | 0, s => s
  | fuel + 1, s =>
    if s.cur_char = '\x00' then s
    else if ¬ isAsciiWhitespace s.cur_char then s
    else
      let s1 := if s.cur_char = '\n' ∨ s.cur_char = '\r' then
          AsmLexer.advance { s with line := s.line + 1, col := 1 }
        else s
      AsmLexer.skip_whitespace fuel s1.advance

/-- lex/asm_lexer.rs: the `while` loop of `AsmLexer::consume_comment`. -/
def AsmLexer.consume_comment_loop : Nat → AsmLexer → AsmLexer
  | 0, s => s
  | fuel + 1, s =>
    if s.cur_char ≠ '\n' ∧ s.cur_char ≠ '\r' ∧ s.cur_char ≠ '\x00' then
      AsmLexer.consume_comment_loop fuel s.advance
    else s

/-- lex/asm_lexer.rs: `AsmLexer::consume_comment`. -/
def AsmLexer.consume_comment (fuel : Nat) (s : AsmLexer) : AsmLexer :=
  AsmLexer.consume_comment_loop fuel s.advance

/-- lex/asm_lexer.rs: the collection loop of `AsmLexer::symbol`
(characters are pushed as written, without case mapping). -/
def AsmLexer.symbol_loop : Nat → AsmLexer → String → String × AsmLexer
  | 0, s, acc => (acc, s)
  | fuel + 1, s, acc =>
    if isAsciiAlphabetic s.cur_char ∧ s.cur_char ≠ '\x00' then
      AsmLexer.symbol_loop fuel s.advance (acc.push s.cur_char)
    else (acc, s)

/-- lex/asm_lexer.rs: `AsmLexer::symbol`. -/
def AsmLexer.symbol (fuel : Nat) (s : AsmLexer) : String × AsmLexer :=
  AsmLexer.symbol_loop fuel s ""

/-- lex/asm_lexer.rs: the collection loop of `AsmLexer::label`
(characters are pushed upper-cased). -/
def AsmLexer.label_loop : Nat → AsmLexer → String → String × AsmLexer
  | 0, s, acc => (acc, s)
  | fuel + 1, s, acc =>
    if isAsciiAlphabetic s.cur_char ∧ s.cur_char ≠ '\x00' then
      AsmLexer.label_loop fuel s.advance (acc.push (asciiUpper s.cur_char))
    else (acc, s)

/-- lex/asm_lexer.rs: `AsmLexer::label` — leading underscore kept, then
upper-cased alphabetic run, then an optional trailing colon. -/
def AsmLexer.label (fuel : Nat) (s : AsmLexer) : String × AsmLexer :=
  let s1 := s.advance
  match AsmLexer.label_loop fuel s1 "_" with
  | (ret, s2) =>
    if s2.cur_char = ':' then (ret.push ':', s2.advance)
    else (ret, s2)

/-- lex/asm_lexer.rs: `AsmLexer::register`. -/
def AsmLexer.register (s : AsmLexer) : String × AsmLexer :=
  if s.cur_char = 'I' then ("I", s.advance)
  else
    let s1 := s.advance
    ("V".push s1.cur_char, s1.advance)

/-- Value of an ASCII digit or hex digit character. -/
def hexDigitVal (c : Char) : Nat :=
  if c.toNat ≤ 57 then c.toNat - 48
  else if c.toNat ≤ 70 then c.toNat - 55
  else c.toNat - 87

/-- Rust `u16::from_str_radix(buf, 10)`: errors (here `none`) on an empty
buffer, a non-digit character, or a value beyond `u16::MAX`. -/
def from_str_radix_10 (buf : String) : Option Nat :=
  if buf.data = [] then none
  else if ¬ buf.data.all isAsciiDigit then none
  else
    let v := buf.data.foldl (fun a c => a * 10 + hexDigitVal c) 0
    if v ≤ 65535 then some v else none

/-- Rust `u16::from_str_radix(buf, 16)`. -/
def from_str_radix_16 (buf : String) : Option Nat :=
  if buf.data = [] then none
  else if ¬ buf.data.all isAsciiHexdigit then none
  else
    let v := buf.data.foldl (fun a c => a * 16 + hexDigitVal c) 0
    if v ≤ 65535 then some v else none

/-- Rust `u8::from_str_radix(buf, 2)`. -/
def from_str_radix_2 (buf : String) : Option Nat :=
  if buf.data = [] then none
  else if ¬ buf.data.all (fun c => c = '0' ∨ c = '1') then none
  else
    let v := buf.data.foldl (fun a c => a * 2 + hexDigitVal c) 0
    if v ≤ 255 then some v else none

/-- lex/asm_lexer.rs: the digit-collection loop of `AsmLexer::dec_lit`. -/
def AsmLexer.dec_digits_loop : Nat → AsmLexer → String → String × AsmLexer
  | 0, s, buf => (buf, s)
  | fuel + 1, s, buf =>
    if isAsciiDigit s.cur_char ∧ s.cur_char ≠ '\x00' then
      AsmLexer.dec_digits_loop fuel s.advance (buf.push s.cur_char)
    else (buf, s)

/-- lex/asm_lexer.rs: `AsmLexer::dec_lit`.  The `unwrap()` on
`from_str_radix` panics when the buffer is empty or the value overflows a
`u16`; the panic is modelled as `none`. -/
def AsmLexer.dec_lit (fuel : Nat) (s : AsmLexer) : Option Nat × AsmLexer :=
  let s1 := s.advance
  match AsmLexer.dec_digits_loop fuel s1 "" with
  | (buf, s2) => (from_str_radix_10 buf, s2)

/-- lex/asm_lexer.rs: the digit-collection loop of `AsmLexer::hex_lit`. -/
def AsmLexer.hex_digits_loop : Nat → AsmLexer → String → String × AsmLexer
  | 0, s, buf => (buf, s)
  | fuel + 1, s, buf =>
    if isAsciiHexdigit s.cur_char ∧ s.cur_char ≠ '\x00' then
      AsmLexer.hex_digits_loop fuel s.advance (buf.push s.cur_char)
    else (buf, s)

/-- lex/asm_lexer.rs: `AsmLexer::hex_lit`; the `unwrap()` panic is `none`. -/
def AsmLexer.hex_lit (fuel : Nat) (s : AsmLexer) : Option Nat × AsmLexer :=
  let s1 := s.advance
  match AsmLexer.hex_digits_loop fuel s1 "" with
  | (buf, s2) => (from_str_radix_16 buf, s2)

/-- lex/asm_lexer.rs: the fixed 8-iteration collection loop of
`AsmLexer::bin_lit` (it pushes whatever character is current, including
the NUL end sentinel). -/
def AsmLexer.bin_chars_loop : Nat → AsmLexer → String → String × AsmLexer
  | 0, s, buf => (buf, s)
  | n + 1, s, buf =>
    AsmLexer.bin_chars_loop n s.advance (buf.push s.cur_char)

/-- lex/asm_lexer.rs: `AsmLexer::bin_lit`; the `unwrap()` panic is `none`. -/
def AsmLexer.bin_lit (s : AsmLexer) : Option Nat × AsmLexer :=
  let s1 := s.advance
  match AsmLexer.bin_chars_loop 8 s1 "" with
  | (buf, s2) => (from_str_radix_2 buf, s2)

/-- Outcome of one `get_next_token` call: a token, a returned
`LexerError`, a process-aborting panic, or fuel exhaustion of the
embedding (reachable only with insufficient fuel). -/
inductive LexResult (σ : Type) where
  | tok (t : Token) (s : σ)
  | err (e : LexerError) (s : σ)
  | panicked
  | outOfFuel
deriving DecidableEq, Repr

/-- Drop the last character of a string (the `&lbl[0..lidx]` slice). -/
def stripLast (t : String) : String :=
  ⟨t.data.dropLast⟩

/-- lex/asm_lexer.rs: `AsmLexer::get_next_token`, as a fuel-indexed
rendering of its `while` loop.  Branches are tested in source order. -/
def AsmLexer.get_next_token_loop : Nat → AsmLexer → LexResult AsmLexer
  | 0, _ => .outOfFuel
  | fuel + 1, s =>
    if s.cur_char = '\x00' then
      .tok ⟨.EndOfInput, .Text ""⟩ s
    else if isAsciiWhitespace s.cur_char then
      AsmLexer.get_next_token_loop fuel (AsmLexer.skip_whitespace (s.text.length + 2) s)
    else if s.cur_char = ',' then
      .tok ⟨.Comma, .Text ","⟩ s.advance
    else if s.cur_char = '.' then
      .tok ⟨.Period, .Text "."⟩ s.advance
    else if s.cur_char = COMMENT_CHAR then
      AsmLexer.get_next_token_loop fuel (AsmLexer.consume_comment (s.text.length + 2) s)
    else if asciiUpper s.cur_char = 'V' ∨ asciiUpper s.cur_char = 'I' then
      match s.register with
      | (r, s1) => .tok ⟨.Register, .Text r⟩ s1
    else if s.cur_char = '_' then
      match AsmLexer.label (s.text.length + 2) s with
      | (lbl, s1) =>
        if lbl.data.getLastD ' ' = ':' then
          .tok ⟨.LblDef, .Text (stripLast lbl)⟩ s1
        else
          .tok ⟨.Label, .Text lbl⟩ s1
    else if isAsciiAlphabetic s.cur_char then
      match AsmLexer.symbol (s.text.length + 2) s with
      | (sym, s1) =>
        if (sym = "EQ" ∨ sym = "NE") ∨ (sym = "KEY" ∨ sym = "NOKEY") then
          .tok ⟨.SkipCond, .Text sym⟩ s1
        else
          .tok ⟨.Instruction, .Text sym⟩ s1
    else if s.cur_char = DEC_LIT_CHAR then
      match AsmLexer.dec_lit (s.text.length + 2) s with
      | (some v, s1) => .tok ⟨.DecLit, .Word v⟩ s1
      | (none, _) => .panicked
    else if s.cur_char = HEX_LIT_CHAR then
      match AsmLexer.hex_lit (s.text.length + 2) s with
      | (some v, s1) => .tok ⟨.HexLit, .Word v⟩ s1
      | (none, _) => .panicked
    else if s.cur_char = BIN_LIT_CHAR then
      match s.bin_lit with
      | (some v, s1) => .tok ⟨.BinLit, .Byte v⟩ s1
      | (none, _) => .panicked
    else
      .err ⟨s.line, s.col, s.cur_char⟩ s

/-- lex/asm_lexer.rs: `AsmLexer::get_next_token` with the standard fuel. -/
def AsmLexer.get_next_token (s : AsmLexer) : LexResult AsmLexer :=
  AsmLexer.get_next_token_loop (s.text.length + 2) s

/-- lex/prep_lexer.rs: `PrepLexer` state (fields in source order); `addr`
is a `u16`, kept reduced modulo `2 ^ 16` where it is advanced. -/
structure PrepLexer where
  text : List Char
  cur_char : Char
  pos : Nat
  line : Nat
  col : Nat
  addr : Nat
  nib_count : Nat
deriving DecidableEq, Repr

/-- lex/prep_lexer.rs: `PrepLexer::new`; the `chars().nth(0).unwrap()`
panic on empty input is modelled as `none`. -/
def PrepLexer.new (new_text : List Char) : Option PrepLexer :=
  match new_text.get? 0 with
  | none => none
  | some c => some ⟨new_text, c, 0, 1, 1, MEM_START, 0⟩

/-- lex/prep_lexer.rs: `PrepLexer::advance` (unlike the assembly lexer it
never touches the column counter). -/
def PrepLexer.advance (s : PrepLexer) : PrepLexer :=
  let pos := s.pos + 1
  if pos > s.text.length - 1 then
    { s with pos := pos, cur_char := '\x00' }
  else
    { s with pos := pos, cur_char := s.text.getD pos '\x00' }

/-- lex/prep_lexer.rs: `PrepLexer::skip_whitespace`, with the same
advance-twice-on-newline shape as the assembly lexer's. -/
def PrepLexer.skip_whitespace : Nat → PrepLexer → PrepLexer
  | 0, s => s
  | fuel + 1, s =>
    if s.cur_char = '\x00' then s
    else if ¬ isAsciiWhitespace s.cur_char then s
    else
      let s1 := if s.cur_char = '\n' ∨ s.cur_char = '\r' then
          PrepLexer.advance { s with line := s.line + 1, col := 1 }
        else s
      PrepLexer.skip_whitespace fuel s1.advance

/-- lex/prep_lexer.rs: the `while` loop of `PrepLexer::consume_comment`. -/
def PrepLexer.consume_comment_loop : Nat → PrepLexer → PrepLexer
  | 0, s => s
  | fuel + 1, s =>
    if s.cur_char ≠ '\n' ∧ s.cur_char ≠ '\r' ∧ s.cur_char ≠ '\x00' then
      PrepLexer.consume_comment_loop fuel s.advance
    else s

/-- lex/prep_lexer.rs: `PrepLexer::consume_comment`. -/
def PrepLexer.consume_comment (fuel : Nat) (s : PrepLexer) : PrepLexer :=
  PrepLexer.consume_comment_loop fuel s.advance

/-- lex/prep_lexer.rs: `PrepLexer::update_addr`.  The floating
`(nib_count as f32 / 2.0).floor()` is exact integer halving; the `u16`
increment is reduced modulo `2 ^ 16`. -/
def PrepLexer.update_addr (s : PrepLexer) : PrepLexer :=
  if s.nib_count ≥ 2 then
    { s with nib_count := 0, addr := (s.addr + s.nib_count / 2) % 65536 }
  else s

/-- lex/prep_lexer.rs: `PrepLexer::consume_register` (note the check is
against the upper-case characters only). -/
def PrepLexer.consume_register (s : PrepLexer) : PrepLexer :=
  let s1 := if s.cur_char ≠ 'I' then s.advance else s
  let s2 := s1.advance
  { s2 with nib_count := s2.nib_count + 1 }

/-- lex/prep_lexer.rs: the collection loop of `PrepLexer::consume_instr`:
alphabetic characters and periods, upper-cased, until whitespace.  The
source tests `is_whitespace` (Unicode) here; on ASCII input it coincides
with `is_ascii_whitespace`, which is what the embedding uses. -/
def PrepLexer.consume_instr_loop : Nat → PrepLexer → String → String × PrepLexer
  | 0, s, op => (op, s)
  | fuel + 1, s, op =>
    if (isAsciiAlphabetic s.cur_char ∨ s.cur_char = '.') ∧ ¬ isAsciiWhitespace s.cur_char then
      PrepLexer.consume_instr_loop fuel s.advance (op.push (asciiUpper s.cur_char))
    else (op, s)

/-- lex/prep_lexer.rs: `PrepLexer::consume_instr` — CLS and RET cost four
nibbles, every other collected mnemonic two. -/
def PrepLexer.consume_instr (fuel : Nat) (s : PrepLexer) : PrepLexer :=
  match PrepLexer.consume_instr_loop fuel s "" with
  | (op, s1) =>
    if op = "CLS" ∨ op = "RET" then { s1 with nib_count := s1.nib_count + 4 }
    else { s1 with nib_count := s1.nib_count + 2 }

/-- Value of a digit string (the exact number the written digits denote). -/
def digitsVal (l : List Char) : Nat :=
  l.foldl (fun a c => a * 10 + hexDigitVal c) 0

/-- Ceiling of the base-2 logarithm via a linear search: the least `k`
with `v ≤ 2 ^ k`.  This equals the Rust
`sum.parse::<f32>().unwrap().log2().ceil()` exactly when `v ≤ 65535`,
the `u16` literal range: such integers are exactly representable in
`f32` (they are below `2 ^ 24`); `log2` of an exact power of two is the
exact integer; and for a non-power `v ≤ 65535` the distance from
`log2 v` to the nearest integer `m ≤ 16` exceeds half an `f32` ulp at
that magnitude, so the rounded `log2` is never an integer and its
ceiling is the mathematical one.  For `v ≤ 1` the float result is zero
or `-inf` and the later `as u32` cast saturates at zero, which the
search reproduces since `v ≤ 2 ^ 0`.  Beyond `2 ^ 24` the `f32` parse
itself rounds (e.g. `16777217` parses to `16777216.0`) and this search
no longer models the float pipeline, so every theorem about the decimal
nibble charge carries an explicit `≤ 65535` bound on the value. -/
def ceilLog2_go : Nat → Nat → Nat → Nat
  | 0, _, k => k
  | fuel + 1, v, k => if v ≤ 2 ^ k then k else ceilLog2_go fuel v (k + 1)

/-- Ceiling of the base-2 logarithm (see `ceilLog2_go`). -/
def ceilLog2 (v : Nat) : Nat :=
  ceilLog2_go v v 0

/-- lex/prep_lexer.rs: the digit-collection loop of
`PrepLexer::consume_dec_lit` (no NUL guard: the digit test suffices). -/
def PrepLexer.dec_sum_loop : Nat → PrepLexer → String → String × PrepLexer
  | 0, s, sum => (sum, s)
  | fuel + 1, s, sum =>
    if isAsciiDigit s.cur_char then
      PrepLexer.dec_sum_loop fuel s.advance (sum.push s.cur_char)
    else (sum, s)

/-- lex/prep_lexer.rs: `PrepLexer::consume_dec_lit`.  The nibble charge is
`ceil(ceil(log2 value) / 4)`; `"".parse::<f32>().unwrap()` panics on an
empty digit string, modelled as `none`.  The `ceilLog2`-based charge is a
faithful model of the source's `f32` parse/log2/ceil pipeline only for
values up to 65535 (see `ceilLog2_go`); theorems about the charge carry
that bound as a hypothesis. -/
def PrepLexer.consume_dec_lit (fuel : Nat) (s : PrepLexer) : Option PrepLexer :=
  let s1 := s.advance
  match PrepLexer.dec_sum_loop fuel s1 "" with
  | (sum, s2) =>
    if sum.data = [] then none
    else
      let bits := ceilLog2 (digitsVal sum.data)
      let nibs_advanced := (bits + 3) / 4
      some { s2 with nib_count := s2.nib_count + nibs_advanced }

/-- lex/prep_lexer.rs: the counting loop of `PrepLexer::consume_hex_lit`. -/
def PrepLexer.hex_count_loop : Nat → PrepLexer → Nat → Nat × PrepLexer
  | 0, s, n => (n, s)
  | fuel + 1, s, n =>
    if isAsciiHexdigit s.cur_char then
      PrepLexer.hex_count_loop fuel s.advance (n + 1)
    else (n, s)

/-- lex/prep_lexer.rs: `PrepLexer::consume_hex_lit` — one nibble per
written hex digit. -/
def PrepLexer.consume_hex_lit (fuel : Nat) (s : PrepLexer) : PrepLexer :=
  let s1 := s.advance
  match PrepLexer.hex_count_loop fuel s1 0 with
  | (nibs_advanced, s2) => { s2 with nib_count := s2.nib_count + nibs_advanced }

/-- lex/prep_lexer.rs: the fixed 8-advance loop of
`PrepLexer::consume_bin_lit`. -/
def PrepLexer.bin_skip_loop : Nat → PrepLexer → PrepLexer
  | 0, s => s
  | n + 1, s => PrepLexer.bin_skip_loop n s.advance

/-- lex/prep_lexer.rs: `PrepLexer::consume_bin_lit` — always two nibbles. -/
def PrepLexer.consume_bin_lit (s : PrepLexer) : PrepLexer :=
  let s1 := s.advance
  let s2 := PrepLexer.bin_skip_loop 8 s1
  { s2 with nib_count := s2.nib_count + 2 }

/-- lex/prep_lexer.rs: the collection loop of `PrepLexer::consume_label`
(characters are pushed as written, in their original case). -/
def PrepLexer.consume_label_loop : Nat → PrepLexer → String → String × PrepLexer
  | 0, s, acc => (acc, s)
  | fuel + 1, s, acc =>
    if isAsciiAlphabetic s.cur_char ∧ ¬ isAsciiWhitespace s.cur_char then
      PrepLexer.consume_label_loop fuel s.advance (acc.push s.cur_char)
    else (acc, s)

/-- lex/prep_lexer.rs: `PrepLexer::consume_label`. -/
def PrepLexer.consume_label (fuel : Nat) (s : PrepLexer) : String × PrepLexer :=
  let s1 := s.advance
  match PrepLexer.consume_label_loop fuel s1 "_" with
  | (ret, s2) =>
    if s2.cur_char = ':' then (ret.push ':', s2.advance)
    else (ret, s2)

/-- lex/prep_lexer.rs: `PrepLexer::get_next_token`, as a fuel-indexed
rendering of its `while` loop; branches in source order.  Commas,
periods, whitespace and comments are consumed silently; registers,
instructions and literals update the nibble count and address and the
scan continues; only label tokens and EndOfInput are surfaced. -/
def PrepLexer.get_next_token_loop : Nat → PrepLexer → LexResult PrepLexer
  | 0, _ => .outOfFuel
  | fuel + 1, s =>
    if s.cur_char = '\x00' then
      .tok ⟨.EndOfInput, .Text ""⟩ s
    else if isAsciiWhitespace s.cur_char then
      PrepLexer.get_next_token_loop fuel (PrepLexer.skip_whitespace (s.text.length + 2) s)
    else if s.cur_char = ',' then
      PrepLexer.get_next_token_loop fuel s.advance
    else if s.cur_char = '.' then
      PrepLexer.get_next_token_loop fuel s.advance
    else if s.cur_char = COMMENT_CHAR then
      PrepLexer.get_next_token_loop fuel (PrepLexer.consume_comment (s.text.length + 2) s)
    else if s.cur_char = 'V' ∨ s.cur_char = 'I' then
      PrepLexer.get_next_token_loop fuel (PrepLexer.consume_register s).update_addr
    else if isAsciiAlphabetic s.cur_char then
      PrepLexer.get_next_token_loop fuel
        ((PrepLexer.consume_instr (s.text.length + 2) s).update_addr)
    else if s.cur_char = DEC_LIT_CHAR then
      match PrepLexer.consume_dec_lit (s.text.length + 2) s with
      | some s1 => PrepLexer.get_next_token_loop fuel s1.update_addr
      | none => .panicked
    else if s.cur_char = HEX_LIT_CHAR then
      PrepLexer.get_next_token_loop fuel
        ((PrepLexer.consume_hex_lit (s.text.length + 2) s).update_addr)
    else if s.cur_char = BIN_LIT_CHAR then
      PrepLexer.get_next_token_loop fuel (PrepLexer.consume_bin_lit s).update_addr
    else if s.cur_char = '_' then
      match PrepLexer.consume_label (s.text.length + 2) s with
      | (lbl, s1) =>
        if lbl.data.getLastD ' ' = ':' then
          .tok ⟨.LblDef, .Text (stripLast lbl)⟩ s1
        else
          let s2 := PrepLexer.update_addr { s1 with nib_count := s1.nib_count + 2 }
          .tok ⟨.Label, .Text lbl⟩ s2
    else
      .err ⟨s.line, s.col, s.cur_char⟩ s

/-- lex/prep_lexer.rs: `PrepLexer::get_next_token` with the standard fuel. -/
def PrepLexer.get_next_token (s : PrepLexer) : LexResult PrepLexer :=
  PrepLexer.get_next_token_loop (s.text.length + 2) s

/-- Result of running the whole preprocessing pass. -/
inductive PrepResult where
  | ok (t : AddrTable) (entries : List (String × Nat))
  | err (e : LexerError)
  | panicked
  | outOfFuel
deriving DecidableEq, Repr

/-- Modelled from the spec: the codegen `Preprocessor` that drives Pass 1
is not present under src/ (codegen/assembler.rs only constructs it and
calls `process`).  Per spec §4.2 and §3 it repeatedly calls
`PrepLexer::get_next_token`; each LabelDef token adds an Address Table
entry mapping the label text, case-normalized to uppercase, to the
lexer's `current_address` at the moment the definition token is produced;
Label tokens only drive the lexer's bookkeeping; EndOfInput finishes the
pass and yields the table.  Alongside the table, this embedding also
returns the recorded (key, address) pairs in order. -/
def Preprocessor.process_loop :
    Nat → PrepLexer → AddrTable → List (String × Nat) → PrepResult
  | 0, _, _, _ => .outOfFuel
  | fuel + 1, s, t, es =>
    match PrepLexer.get_next_token s with
    | .tok tok s1 =>
      match tok.ttype with
      | .EndOfInput => .ok t es
      | .LblDef =>
        match tok.value.as_text with
        | .ok lbl =>
          let key := upperText lbl
          Preprocessor.process_loop fuel s1 (t.add_entry key s1.addr)
            (es ++ [(key, s1.addr)])
        | .error _ => .panicked
      | _ => Preprocessor.process_loop fuel s1 t es
    | .err e _ => .err e
    | .panicked => .panicked
    | .outOfFuel => .outOfFuel

/-- Modelled from the spec: `Preprocessor::new` over the source text plus
`process` (see `Preprocessor.process_loop`): Pass 1 end to end, from
source text to the populated Address Table. -/
def pass1 (src : List Char) : PrepResult :=
  match PrepLexer.new src with
  | none => .panicked
  | some s => Preprocessor.process_loop (src.length + 2) s AddrTable.new []

/-- ch8_isa `data::JmpData` (external crate, interface boundary). -/
structure JmpData where
  addr : Nat
deriving DecidableEq, Repr

/-- ch8_isa `data::CallData`. -/
structure CallData where
  addr : Nat
deriving DecidableEq, Repr

/-- ch8_isa `data::JpcData`. -/
structure JpcData where
  addr : Nat
deriving DecidableEq, Repr

/-- ch8_isa `data::SkipData` with its three constructors
(`with_register`, `with_constant`, `with_key`). -/
inductive SkipData where
  | with_register (vx vy : Register) (st : SkipType)
  | with_constant (vx : Register) (nn : Nat) (st : SkipType)
  | with_key (vx : Register) (st : SkipType)
deriving DecidableEq, Repr

/-- ch8_isa `data::MovData` (`with_register` / `with_constant`). -/
inductive MovData where
  | with_register (vx vy : Register)
  | with_constant (vx : Register) (value : Nat)
deriving DecidableEq, Repr

/-- ch8_isa `data::AddData` (`with_register` / `with_constant`). -/
inductive AddData where
  | with_register (vx vy : Register)
  | with_constant (vx : Register) (value : Nat)
deriving DecidableEq, Repr

/-- ch8_isa two-register data (`OrData`, `AndData`, `XorData`, `SubData`,
`SubnData`, all of shape `new(vx, vy)`). -/
structure RegPairData where
  vx : Register
  vy : Register
deriving DecidableEq, Repr

/-- ch8_isa one-register data (`ShrData`, `ShlData`, `GdlData`, `KeyData`,
`SdlData`, `SndData`, `SchData`, `BcdData`, `RdpData`, `RldData`, all of
shape `new(vx)`). -/
structure RegData where
  vx : Register
deriving DecidableEq, Repr

/-- ch8_isa `data::RandData` (`new(vx, nn)` with `nn : u8`). -/
structure RandData where
  vx : Register
  nn : Nat
deriving DecidableEq, Repr

/-- ch8_isa `data::DrawData` (`new(vx, vy, h)` with `h : u8`). -/
structure DrawData where
  vx : Register
  vy : Register
  h : Nat
deriving DecidableEq, Repr

/-- ch8_isa `codegen::Instruction`: the abstract instructions the
assembler hands to the external binary encoder. -/
inductive Instruction where
  | CLS
  | RET
  | JMP (d : JmpData)
  | CALL (d : CallData)
  | SKIP (d : SkipData)
  | MOV (d : MovData)
  | ADD (d : AddData)
  | OR (d : RegPairData)
  | AND (d : RegPairData)
  | XOR (d : RegPairData)
  | SUB (d : RegPairData)
  | SHR (d : RegData)
  | SUBN (d : RegPairData)
  | SHL (d : RegData)
  | JPC (d : JpcData)
  | RAND (d : RandData)
  | DRAW (d : DrawData)
  | GDL (d : RegData)
  | KEY (d : RegData)
  | SDL (d : RegData)
  | SND (d : RegData)
  | SCH (d : RegData)
  | BCD (d : RegData)
  | RDP (d : RegData)
  | RLD (d : RegData)
deriving DecidableEq, Repr

/-- One item appended to the output binary. -/
inductive BinEntry where
  | instr (i : Instruction)
  | byte (b : Nat)
  | word (w : Nat)
deriving DecidableEq, Repr

/-- ch8_isa `codegen::Binary` (external sink): an output name and the
sequence of appended items.  Per spec §6 the encoder accepts every value
Pass 2 constructs, so `add_instruction`, `add_byte` and `add_word` are
modelled as total. -/
structure Binary where
  name : String
  entries : List BinEntry
deriving DecidableEq, Repr

/-- External `Binary::new` (its failure branch is never modelled). -/
def Binary.new (name : String) : Binary := ⟨name, []⟩

/-- External `Binary::add_instruction`. -/
def Binary.add_instruction (b : Binary) (i : Instruction) : Binary :=
  { b with entries := b.entries ++ [.instr i] }

/-- External `Binary::add_byte`. -/
def Binary.add_byte (b : Binary) (v : Nat) : Binary :=
  { b with entries := b.entries ++ [.byte v] }

/-- External `Binary::add_word`. -/
def Binary.add_word (b : Binary) (v : Nat) : Binary :=
  { b with entries := b.entries ++ [.word v] }

/-- codegen/assembler.rs: `Assembler` state. -/
structure Assembler where
  lexer : AsmLexer
  addrs : AddrTable
  cur_token : Token
  binary : Binary
deriving DecidableEq, Repr

/-- Outcome of one parsing method of the `Assembler`: a value plus the
mutated state, a returned error, a panic, or fuel exhaustion of the
embedding. -/
inductive PResult (α : Type) where
  | ok (a : α) (s : Assembler)
  | err (e : AsmError)
  | panicked
  | outOfFuel
deriving DecidableEq, Repr

/-- Sequencing of `PResult` computations (Rust `?` propagation). -/
def PResult.bind {α β : Type} : PResult α → (α → Assembler → PResult β) → PResult β
  | .ok a s, f => f a s
  | .err e, _ => .err e
  | .panicked, _ => .panicked
  | .outOfFuel, _ => .outOfFuel

/-- codegen/assembler.rs: `Assembler::eat`. -/
def Assembler.eat (s : Assembler) (ttype : TokenType) : PResult Unit :=
  if s.cur_token.ttype = ttype then
    match s.lexer.get_next_token with
    | .tok t lex1 => .ok () { s with lexer := lex1, cur_token := t }
    | .err le _ => .err (.Lexer le)
    | .panicked => .panicked
    | .outOfFuel => .outOfFuel
  else
    .err (.Parser ⟨ttype, s.cur_token.ttype, s.lexer.line, s.lexer.col⟩)

/-- codegen/assembler.rs: `Assembler::dec_lit` (the `unwrap()` on
`as_word` panics on a non-word payload). -/
def Assembler.dec_lit (s : Assembler) : PResult Nat :=
  let save_token := s.cur_token
  (s.eat .DecLit).bind fun _ s =>
    match save_token.value.as_word with
    | .ok w => .ok w s
    | .error _ => .panicked

/-- codegen/assembler.rs: `Assembler::hex_lit`. -/
def Assembler.hex_lit (s : Assembler) : PResult Nat :=
  let save_token := s.cur_token
  (s.eat .HexLit).bind fun _ s =>
    match save_token.value.as_word with
    | .ok w => .ok w s
    | .error _ => .panicked

/-- codegen/assembler.rs: `Assembler::bin_lit`. -/
def Assembler.bin_lit (s : Assembler) : PResult Nat :=
  let save_token := s.cur_token
  (s.eat .BinLit).bind fun _ s =>
    match save_token.value.as_byte with
    | .ok b => .ok b s
    | .error _ => .panicked

/-- codegen/assembler.rs: `Assembler::constant` (binary literals widen to
`u16` losslessly). -/
def Assembler.constant (s : Assembler) : PResult Nat :=
  if s.cur_token.ttype = .DecLit then s.dec_lit
  else if s.cur_token.ttype = .HexLit then s.hex_lit
  else s.bin_lit

/-- codegen/assembler.rs: `Assembler::label` — eat a Label token, then
resolve its text through the Address Table. -/
def Assembler.label (s : Assembler) : PResult Nat :=
  let save_token := s.cur_token
  (s.eat .Label).bind fun _ s =>
    match save_token.value.as_text with
    | .error _ => .panicked
    | .ok lstr =>
      match s.addrs.get_entry lstr with
      | .ok addr => .ok addr s
      | .error ae => .err (.Address ae)

/-- codegen/assembler.rs: `Assembler::register`; the `panic!` on an
unknown register index character is modelled as `panicked`. -/
def Assembler.register (s : Assembler) : PResult Register :=
  let save_token := s.cur_token
  (s.eat .Register).bind fun _ s =>
    match save_token.value.as_text with
    | .error _ => .panicked
    | .ok rtext =>
      match rtext.data.get? 0 with
      | none => .panicked
      | some fchar =>
        if fchar = 'I' then .ok .I s
        else
          match rtext.data.get? 1 with
          | none => .panicked
          | some schar =>
            if schar = '0' then .ok .V0 s
            else if schar = '1' then .ok .V1 s
            else if schar = '2' then .ok .V2 s
            else if schar = '3' then .ok .V3 s
            else if schar = '4' then .ok .V4 s
            else if schar = '5' then .ok .V5 s
            else if schar = '6' then .ok .V6 s
            else if schar = '7' then .ok .V7 s
            else if schar = '8' then .ok .V8 s
            else if schar = '9' then .ok .V9 s
            else if schar = 'A' then .ok .VA s
            else if schar = 'B' then .ok .VB s
            else if schar = 'C' then .ok .VC s
            else if schar = 'D' then .ok .VD s
            else if schar = 'E' then .ok .VE s
            else if schar = 'F' then .ok .VF s
            else .panicked

/-- codegen/assembler.rs: `Assembler::skiptype`.  The lexer's
skip-condition texts are EQ/NE/KEY/NOKEY, yet this match accepts
EQ/NE/KD/KU and panics otherwise. -/
def Assembler.skiptype (s : Assembler) : PResult SkipType :=
  let save_token := s.cur_token
  (s.eat .SkipCond).bind fun _ s =>
    match save_token.value.as_text with
    | .error _ => .panicked
    | .ok skstr =>
      if skstr = "EQ" then .ok .Equals s
      else if skstr = "NE" then .ok .NotEquals s
      else if skstr = "KD" then .ok .KeyDown s
      else if skstr = "KU" then .ok .KeyUp s
      else .panicked

/-- codegen/assembler.rs: the SKIP arm of `Assembler::instruction`. -/
def Assembler.instr_skip (s : Assembler) : PResult Instruction :=
  (s.eat .Period).bind fun _ s =>
  (s.skiptype).bind fun st s =>
  (s.register).bind fun vx s =>
  if vx = .I then
    .err (.Argument ⟨vx, "SKIP", s.lexer.line, s.lexer.col⟩)
  else
    (if st = .Equals ∨ st = .NotEquals then s.eat .Comma else .ok () s).bind fun _ s =>
    let ttype := s.cur_token.ttype
    if ttype = .Register then
      (s.register).bind fun vy s =>
      if vy = .I then
        .err (.Argument ⟨vy, "SKIP", s.lexer.line, s.lexer.col⟩)
      else if st = .KeyUp ∨ st = .KeyDown then
        .err (.Skip ⟨st, s.lexer.line, s.lexer.col⟩)
      else
        .ok (.SKIP (.with_register vx vy st)) s
    else if (ttype = .HexLit ∨ ttype = .DecLit) ∨ ttype = .BinLit then
      (s.constant).bind fun nn16 s =>
      let nn := nn16 % 256
      if st = .KeyUp ∨ st = .KeyDown then
        .err (.Skip ⟨st, s.lexer.line, s.lexer.col⟩)
      else
        .ok (.SKIP (.with_constant vx nn st)) s
    else
      if st ≠ .KeyUp ∧ st ≠ .KeyDown then
        .err (.Skip ⟨st, s.lexer.line, s.lexer.col⟩)
      else
        .ok (.SKIP (.with_key vx st)) s

/-- codegen/assembler.rs: the MOV arm of `Assembler::instruction`. -/
def Assembler.instr_mov (s : Assembler) : PResult Instruction :=
  (s.register).bind fun vx s =>
  (s.eat .Comma).bind fun _ s =>
  let ttype := s.cur_token.ttype
  if ttype = .Register then
    if vx = .I then
      .err (.Argument ⟨vx, "MOV", s.lexer.line, s.lexer.col⟩)
    else
      (s.register).bind fun vy s =>
      if vy = .I then
        .err (.Argument ⟨vy, "MOV", s.lexer.line, s.lexer.col⟩)
      else
        .ok (.MOV (.with_register vx vy)) s
  else if ttype = .Label then
    if vx ≠ .I then
      .err (.Argument ⟨vx, "MOV", s.lexer.line, s.lexer.col⟩)
    else
      (s.label).bind fun addr s =>
      .ok (.MOV (.with_constant vx addr)) s
  else
    (s.constant).bind fun cst s =>
    .ok (.MOV (.with_constant vx cst)) s

/-- codegen/assembler.rs: the ADD arm of `Assembler::instruction` (note
the source checks `vx` against the index register only on the constant
path, after parsing the constant). -/
def Assembler.instr_add (s : Assembler) : PResult Instruction :=
  (s.register).bind fun vx s =>
  (s.eat .Comma).bind fun _ s =>
  if s.cur_token.ttype = .Register then
    (s.register).bind fun vy s =>
    if vy = .I then
      .err (.Argument ⟨vy, "ADD", s.lexer.line, s.lexer.col⟩)
    else
      .ok (.ADD (.with_register vx vy)) s
  else
    (s.constant).bind fun cst s =>
    if vx = .I then
      .err (.Argument ⟨vx, "ADD", s.lexer.line, s.lexer.col⟩)
    else
      .ok (.ADD (.with_constant vx cst)) s

/-- codegen/assembler.rs: the shared shape of the OR/AND/XOR/SUB/SUBN
arms — first register (index register rejected), comma, second register
(index register rejected), then the two-register data. -/
def Assembler.instr_regpair (s : Assembler) (name : String)
    (mk : RegPairData → Instruction) : PResult Instruction :=
  (s.register).bind fun vx s =>
  if vx = .I then
    .err (.Argument ⟨vx, name, s.lexer.line, s.lexer.col⟩)
  else
    (s.eat .Comma).bind fun _ s =>
    (s.register).bind fun vy s =>
    if vy = .I then
      .err (.Argument ⟨vy, name, s.lexer.line, s.lexer.col⟩)
    else
      .ok (mk ⟨vx, vy⟩) s

/-- codegen/assembler.rs: the shared shape of the
SHR/SHL/GDL/KEY/SDL/SND/SCH/BCD/RDP/RLD arms — one register operand with
the index register rejected. -/
def Assembler.instr_onereg (s : Assembler) (name : String)
    (mk : RegData → Instruction) : PResult Instruction :=
  (s.register).bind fun vx s =>
  if vx = .I then
    .err (.Argument ⟨vx, name, s.lexer.line, s.lexer.col⟩)
  else
    .ok (mk ⟨vx⟩) s

/-- codegen/assembler.rs: the JPC arm of `Assembler::instruction`. -/
def Assembler.instr_jpc (s : Assembler) : PResult Instruction :=
  if s.cur_token.ttype = .Label then
    (s.label).bind fun addr s => .ok (.JPC ⟨addr⟩) s
  else
    (s.constant).bind fun addr s => .ok (.JPC ⟨addr⟩) s

/-- codegen/assembler.rs: the RAND arm of `Assembler::instruction`
(`nn16 & 0xFF` truncates the limit to eight bits). -/
def Assembler.instr_rand (s : Assembler) : PResult Instruction :=
  (s.register).bind fun vx s =>
  if vx = .I then
    .err (.Argument ⟨vx, "RAND", s.lexer.line, s.lexer.col⟩)
  else
    (s.eat .Comma).bind fun _ s =>
    (s.constant).bind fun nn16 s =>
    .ok (.RAND ⟨vx, nn16 % 256⟩) s

/-- codegen/assembler.rs: the DRAW arm of `Assembler::instruction`
(`h16 & 0xF` truncates the height to four bits). -/
def Assembler.instr_draw (s : Assembler) : PResult Instruction :=
  (s.register).bind fun vx s =>
  if vx = .I then
    .err (.Argument ⟨vx, "DRAW", s.lexer.line, s.lexer.col⟩)
  else
    (s.eat .Comma).bind fun _ s =>
    (s.register).bind fun vy s =>
    if vy = .I then
      .err (.Argument ⟨vy, "DRAW", s.lexer.line, s.lexer.col⟩)
    else
      (s.eat .Comma).bind fun _ s =>
      (s.constant).bind fun h16 s =>
      .ok (.DRAW ⟨vx, vy, h16 % 16⟩) s

/-- codegen/assembler.rs: `Assembler::instruction` — save the current
token, eat the Instruction token, then dispatch on the mnemonic text
(unknown mnemonics raise an `OpcodeError`). -/
def Assembler.instruction (s : Assembler) : PResult Instruction :=
  let save_token := s.cur_token
  (s.eat .Instruction).bind fun _ s =>
  match save_token.value.as_text with
  | .error _ => .panicked
  | .ok instr =>
    if instr = "CLS" then .ok .CLS s
    else if instr = "RET" then .ok .RET s
    else if instr = "JMP" then
      (s.label).bind fun addr s => .ok (.JMP ⟨addr⟩) s
    else if instr = "CALL" then
      (s.label).bind fun addr s => .ok (.CALL ⟨addr⟩) s
    else if instr = "SKIP" then s.instr_skip
    else if instr = "MOV" then s.instr_mov
    else if instr = "ADD" then s.instr_add
    else if instr = "OR" then s.instr_regpair "OR" .OR
    else if instr = "AND" then s.instr_regpair "AND" .AND
    else if instr = "XOR" then s.instr_regpair "XOR" .XOR
    else if instr = "SUB" then s.instr_regpair "SUB" .SUB
    else if instr = "SHR" then s.instr_onereg "SHR" .SHR
    else if instr = "SUBN" then s.instr_regpair "SUBN" .SUBN
    else if instr = "SHL" then s.instr_onereg "SHL" .SHL
    else if instr = "JPC" then s.instr_jpc
    else if instr = "RAND" then s.instr_rand
    else if instr = "DRAW" then s.instr_draw
    else if instr = "GDL" then s.instr_onereg "GDL" .GDL
    else if instr = "KEY" then s.instr_onereg "KEY" .KEY
    else if instr = "SDL" then s.instr_onereg "SDL" .SDL
    else if instr = "SND" then s.instr_onereg "SND" .SND
    else if instr = "SCH" then s.instr_onereg "SCH" .SCH
    else if instr = "BCD" then s.instr_onereg "BCD" .BCD
    else if instr = "RDP" then s.instr_onereg "RDP" .RDP
    else if instr = "RLD" then s.instr_onereg "RLD" .RLD
    else .err (.Opcode ⟨instr, s.lexer.line, s.lexer.col⟩)

/-- Result of the whole assembly run. -/
inductive AsmResult where
  | done (b : Binary)
  | err (e : AsmError)
  | panicked
  | outOfFuel
deriving DecidableEq, Repr

/-- codegen/assembler.rs: the driving `loop` of `Assembler::assemble`.
Instruction, literal and LabelDef tokens are handled; EndOfInput stops;
for every other token kind the body falls through with the state
unchanged, so the loop spins forever — here, it exhausts any fuel. -/
def Assembler.assemble_loop : Nat → Assembler → AsmResult
  | 0, _ => .outOfFuel
  | fuel + 1, s =>
    if s.cur_token.ttype = .EndOfInput then .done s.binary
    else if s.cur_token.ttype = .Instruction then
      match s.instruction with
      | .ok i s1 =>
        Assembler.assemble_loop fuel { s1 with binary := s1.binary.add_instruction i }
      | .err e => .err e
      | .panicked => .panicked
      | .outOfFuel => .outOfFuel
    else if s.cur_token.ttype = .BinLit then
      match s.bin_lit with
      | .ok b s1 =>
        Assembler.assemble_loop fuel { s1 with binary := s1.binary.add_byte b }
      | .err e => .err e
      | .panicked => .panicked
      | .outOfFuel => .outOfFuel
    else if s.cur_token.ttype = .DecLit then
      match s.dec_lit with
      | .ok dec s1 =>
        if dec > 0xFF then
          Assembler.assemble_loop fuel { s1 with binary := s1.binary.add_word dec }
        else
          Assembler.assemble_loop fuel { s1 with binary := s1.binary.add_byte dec }
      | .err e => .err e
      | .panicked => .panicked
      | .outOfFuel => .outOfFuel
    else if s.cur_token.ttype = .HexLit then
      match s.hex_lit with
      | .ok hex s1 =>
        if hex > 0xFF then
          Assembler.assemble_loop fuel { s1 with binary := s1.binary.add_word hex }
        else
          Assembler.assemble_loop fuel { s1 with binary := s1.binary.add_byte hex }
      | .err e => .err e
      | .panicked => .panicked
      | .outOfFuel => .outOfFuel
    else if s.cur_token.ttype = .LblDef then
      match s.eat .LblDef with
      | .ok _ s1 => Assembler.assemble_loop fuel s1
      | .err e => .err e
      | .panicked => .panicked
      | .outOfFuel => .outOfFuel
    else
      Assembler.assemble_loop fuel s

/-- Result of `Assembler::new`. -/
inductive InitResult where
  | ok (s : Assembler)
  | err (e : AsmError)
  | panicked
  | outOfFuel
deriving DecidableEq, Repr

/-- codegen/assembler.rs: `Assembler::new` — build the binary sink, run
the preprocessor (Pass 1) for the Address Table, build a fresh assembly
lexer over the same text and prime it with one lookahead token. -/
def Assembler.new (code : List Char) (name : String) : InitResult :=
  let bin := Binary.new name
  match pass1 code with
  | .err le => .err (.Lexer le)
  | .panicked => .panicked
  | .outOfFuel => .outOfFuel
  | .ok new_addrs _ =>
    match AsmLexer.new code with
    | none => .panicked
    | some lex =>
      match lex.get_next_token with
      | .tok tok lex1 => .ok ⟨lex1, new_addrs, tok, bin⟩
      | .err le _ => .err (.Lexer le)
      | .panicked => .panicked
      | .outOfFuel => .outOfFuel

/-- The full pipeline on a source text: `Assembler::new` followed by
`assemble`, with fuel ample for every terminating run. -/
def assemble_source (code : List Char) (name : String) : AsmResult :=
  match Assembler.new code name with
  | .ok s => Assembler.assemble_loop (code.length + 2) s
  | .err e => .err e
  | .panicked => .panicked
  | .outOfFuel => .outOfFuel

/-- Search loop for `spec_minNibbleWidth`. -/
def spec_minNibbleWidth_go : Nat → Nat → Nat → Nat
  | 0, _, n => n
  | fuel + 1, v, n => if v < 16 ^ n then n else spec_minNibbleWidth_go fuel v (n + 1)

/-- Modelled from the spec: "the minimum nibble width able to represent
the literal's magnitude" — the least `n ≥ 1` with `v < 16 ^ n`.  This
definition follows the spec's words and exists only to be compared with
the nibble charge the code computes. -/
def spec_minNibbleWidth (v : Nat) : Nat :=
  spec_minNibbleWidth_go (v + 1) v 1

/-- Test harness mirroring the lexer-priming part of `Assembler::new`
with an injected Address Table: the unit tests in codegen/assembler.rs
drive `Assembler::instruction` on states of exactly this shape. -/
def Assembler.with_table (code : List Char) (t : AddrTable) : Option Assembler :=
  match AsmLexer.new code with
  | none => none
  | some lex =>
    match lex.get_next_token with
    | .tok tok lex1 => some ⟨lex1, t, tok, Binary.new "out"⟩
    | _ => none

/-- Run `Assembler::instruction` on the source `MOV Vd, _start` (for a
register digit `d`) with the given Address Table. -/
def mov_v_run (t : AddrTable) (d : Char) : PResult Instruction :=
  match Assembler.with_table ("MOV V".toList ++ [d] ++ ", _start".toList) t with
  | some st => st.instruction
  | none => .panicked

/-- Run `Assembler::instruction` on the source `MOV I, _start` with the
given Address Table. -/
def mov_i_run (t : AddrTable) : PResult Instruction :=
  match Assembler.with_table ("MOV I, _start".toList) t with
  | some st => st.instruction
  | none => .panicked

/-- The characters of `MOV Vd, _start` as an explicit list. -/
def mov_v_text (d : Char) : List Char :=
  ['M', 'O', 'V', ' ', 'V', d, ',', ' ', '_', 's', 't', 'a', 'r', 't']

/-- Intermediate assembler state while parsing `MOV Vd, _start`: current
token Instruction(MOV). -/
def mv_state0 (d : Char) : Assembler :=
  ⟨⟨mov_v_text d, 3, ' ', 1, 4⟩, AddrTable.new, ⟨.Instruction, .Text "MOV"⟩, ⟨"out", []⟩⟩

/-- Intermediate state: current token Register(Vd). -/
def mv_state1 (d : Char) : Assembler :=
  ⟨⟨mov_v_text d, 6, ',', 1, 7⟩, AddrTable.new, ⟨.Register, .Text ("V".push d)⟩, ⟨"out", []⟩⟩

/-- Intermediate state: current token Comma. -/
def mv_state2 (d : Char) : Assembler :=
  ⟨⟨mov_v_text d, 7, ' ', 1, 8⟩, AddrTable.new, ⟨.Comma, .Text ","⟩, ⟨"out", []⟩⟩

/-- Intermediate state: current token Label(_START). -/
def mv_state3 (d : Char) : Assembler :=
  ⟨⟨mov_v_text d, 14, '\x00', 1, 14⟩, AddrTable.new, ⟨.Label, .Text "_START"⟩, ⟨"out", []⟩⟩

/-- Intermediate assembler state while parsing `MOV I, _start`: current
token Instruction(MOV). -/
def mi_state0 : Assembler :=
  ⟨⟨"MOV I, _start".toList, 3, ' ', 1, 4⟩, AddrTable.new, ⟨.Instruction, .Text "MOV"⟩, ⟨"out", []⟩⟩

/-- Intermediate state: current token Register(I). -/
def mi_state1 : Assembler :=
  ⟨⟨"MOV I, _start".toList, 5, ',', 1, 6⟩, AddrTable.new, ⟨.Register, .Text "I"⟩, ⟨"out", []⟩⟩

/-- Intermediate state: current token Comma. -/
def mi_state2 : Assembler :=
  ⟨⟨"MOV I, _start".toList, 6, ' ', 1, 7⟩, AddrTable.new, ⟨.Comma, .Text ","⟩, ⟨"out", []⟩⟩

/-- Intermediate state: current token Label(_START). -/
def mi_state3 : Assembler :=
  ⟨⟨"MOV I, _start".toList, 13, '\x00', 1, 13⟩, AddrTable.new, ⟨.Label, .Text "_START"⟩, ⟨"out", []⟩⟩

/-- Final state of the `MOV I, _start` parse: current token EndOfInput. -/
def mi_state4 : Assembler :=
  ⟨⟨"MOV I, _start".toList, 13, '\x00', 1, 13⟩, AddrTable.new, ⟨.EndOfInput, .Text ""⟩, ⟨"out", []⟩⟩

/-- The general register denoted by a hex digit character. -/
def reg_of_digit (d : Char) : Register :=
  if d = '0' then .V0 else if d = '1' then .V1
  else if d = '2' then .V2 else if d = '3' then .V3
  else if d = '4' then .V4 else if d = '5' then .V5
  else if d = '6' then .V6 else if d = '7' then .V7
  else if d = '8' then .V8 else if d = '9' then .V9
  else if d = 'A' then .VA else if d = 'B' then .VB
  else if d = 'C' then .VC else if d = 'D' then .VD
  else if d = 'E' then .VE else .VF

/-- C10: constructing a lexer over the empty source panics (`none`): both
`AsmLexer::new` and `PrepLexer::new` read the first character with an
unchecked `unwrap`, and `Assembler::new` therefore panics on empty input
as well, while on any non-empty source both lexer constructors succeed. -/
theorem c10_empty_source_panics :
    AsmLexer.new [] = none
    ∧ PrepLexer.new [] = none
    ∧ Assembler.new [] "out" = .panicked
    ∧ ∀ (c : Char) (cs : List Char),
        (AsmLexer.new (c :: cs)).isSome ∧ (PrepLexer.new (c :: cs)).isSome :=
  ⟨rfl, rfl, rfl, fun _ _ => ⟨rfl, rfl⟩⟩

/-- C9: on the one-character source `#` (a decimal-literal sigil followed
by no digits) the assembly lexer's next-token operation neither returns a
token nor a `LexerError`: the `unwrap()` on `from_str_radix` panics.  The
same panic outcome arises for a decimal literal beyond the unsigned
16-bit range, a `$` sigil with no hex digits, and a `%` sigil with fewer
than 8 binary digits before end of input. -/
theorem c9_malformed_literals_panic :
    (∃ l, AsmLexer.new ("#".toList) = some l ∧ l.get_next_token = .panicked)
    ∧ (∃ l, AsmLexer.new ("#70000".toList) = some l ∧ l.get_next_token = .panicked)
    ∧ (∃ l, AsmLexer.new ("$".toList) = some l ∧ l.get_next_token = .panicked)
    ∧ (∃ l, AsmLexer.new ("%1".toList) = some l ∧ l.get_next_token = .panicked) :=
  ⟨⟨_, rfl, rfl⟩, ⟨_, rfl, rfl⟩, ⟨_, rfl, rfl⟩, ⟨_, rfl, rfl⟩⟩

/-- C6: tokenizing the source `CLS` newline `RET` does not yield
Instruction(CLS), Instruction(RET), EndOfInput: `skip_whitespace`
advances twice on the newline, consuming the `R`, so the second token is
Instruction(ET). -/
theorem c6_newline_swallows_character :
    ∃ l1 s2 s3 s4,
      AsmLexer.new ("CLS\nRET".toList) = some l1
      ∧ l1.get_next_token = .tok ⟨.Instruction, .Text "CLS"⟩ s2
      ∧ s2.get_next_token = .tok ⟨.Instruction, .Text "ET"⟩ s3
      ∧ s3.get_next_token = .tok ⟨.EndOfInput, .Text ""⟩ s4 :=
  ⟨_, _, _, _, rfl, rfl, rfl, rfl⟩

/-- C5: assembling `SKIP.KEY V0` — a key-down condition written with the
lexer's own skip-condition spelling, one register operand, no comma —
does not produce a key-variant SKIP instruction: `Assembler::skiptype`
accepts only the EQ/NE/KD/KU texts, so the SkipCond token text `KEY`
falls into its `panic!` arm.  Spelling the condition `KD` fares no
better: the lexer classifies `KD` as an Instruction token, so `skiptype`
fails with a syntax error expecting SkipCond. -/
theorem c5_key_skip_unreachable :
    assemble_source ("SKIP.KEY V0".toList) "out" = .panicked
    ∧ assemble_source ("SKIP.KD V0".toList) "out"
        = .err (.Parser ⟨.SkipCond, .Instruction, 1, 8⟩) :=
  ⟨rfl, rfl⟩

/-- C2: when `assemble` meets a top-level token kind it has no branch for
(here the Comma token of the source `,`), it does not return a syntactic
error: the loop body falls through without consuming the token, so the
loop re-runs on the unchanged state forever, exhausting every fuel
bound. -/
theorem c2_unhandled_top_level_token_loops :
    ∃ s, Assembler.new (",".toList) "out" = .ok s
      ∧ s.cur_token.ttype = .Comma
      ∧ ∀ fuel, Assembler.assemble_loop fuel s = .outOfFuel := by
  refine ⟨⟨⟨[','], 1, '\x00', 1, 1⟩, ⟨0, []⟩, ⟨.Comma, .Text ","⟩, ⟨"out", []⟩⟩, rfl, rfl, ?_⟩
  intro fuel
  induction fuel with
  | zero => rfl
  | succ n ih => exact ih

/-- C3: the assembly pipeline does not terminate on every input: on the
source `V0` (a Register token at top level) `Assembler::new` succeeds,
and the `assemble` loop then spins forever on the unhandled token,
exhausting every fuel bound. -/
theorem c3_assemble_not_total :
    ∃ s, Assembler.new ("V0".toList) "out" = .ok s
      ∧ s.cur_token.ttype = .Register
      ∧ ∀ fuel, Assembler.assemble_loop fuel s = .outOfFuel := by
  refine ⟨⟨⟨['V', '0'], 2, '\x00', 1, 2⟩, ⟨0, []⟩, ⟨.Register, .Text "V0"⟩, ⟨"out", []⟩⟩,
    rfl, rfl, ?_⟩
  intro fuel
  induction fuel with
  | zero => rfl
  | succ n ih => exact ih

/-- C4: `KEY V0` does not assemble into a KEY abstract instruction: the
lexer classifies the symbol `KEY` as a SkipCondition token (it is in the
skip-condition set), top-level dispatch in `assemble` has no branch for
SkipCondition, and the loop spins forever appending nothing; the KEY arm
of `Assembler::instruction` is unreachable from the token stream. -/
theorem c4_key_mnemonic_lexed_as_skipcond :
    ∃ s, Assembler.new ("KEY V0".toList) "out" = .ok s
      ∧ s.cur_token = ⟨.SkipCond, .Text "KEY"⟩
      ∧ s.binary.entries = []
      ∧ ∀ fuel, Assembler.assemble_loop fuel s = .outOfFuel := by
  refine ⟨⟨⟨"KEY V0".toList, 3, ' ', 1, 4⟩, ⟨0, []⟩, ⟨.SkipCond, .Text "KEY"⟩, ⟨"out", []⟩⟩,
    rfl, rfl, rfl, ?_⟩
  intro fuel
  induction fuel with
  | zero => rfl
  | succ n ih => exact ih

/-- Replace the Address Table of an assembler state (proof device for
table-independence arguments). -/
def Assembler.set_addrs (s : Assembler) (t : AddrTable) : Assembler :=
  { s with addrs := t }

/-- Helper: `eat` never reads the Address Table — swapping the table
commutes with it. -/
theorem eat_set_addrs (s : Assembler) (t : AddrTable) (tt : TokenType) :
    (s.set_addrs t).eat tt = match s.eat tt with
      | .ok a s1 => .ok a (s1.set_addrs t)
      | .err e => .err e
      | .panicked => .panicked
      | .outOfFuel => .outOfFuel := by
  simp only [Assembler.eat, Assembler.set_addrs]
  split
  · cases s.lexer.get_next_token <;> rfl
  · rfl

/-- Helper: the lexer-priming harness builds the same state for every
table, with that table installed. -/
theorem with_table_set_addrs (code : List Char) (t : AddrTable) :
    Assembler.with_table code t
      = (Assembler.with_table code AddrTable.new).map (fun s => s.set_addrs t) := by
  simp only [Assembler.with_table]
  cases AsmLexer.new code with
  | none => rfl
  | some lex =>
    dsimp only
    cases lex.get_next_token <;> rfl

/-- Helper: what `Assembler::label` returns once its `eat` has succeeded —
the Address Table lookup of the saved token's text decides the outcome. -/
theorem label_spec (s snext : Assembler) (L : String) (tbl : AddrTable)
    (hct : s.cur_token = ⟨.Label, .Text L⟩)
    (heat : s.eat .Label = .ok () snext)
    (htbl : snext.addrs = tbl) :
    s.label = (match tbl.get_entry L with
      | .ok addr => .ok addr snext
      | .error ae => .err (.Address ae)) := by
  simp only [Assembler.label, heat, PResult.bind, hct, Variant.as_text, htbl]

set_option maxHeartbeats 1600000

/-- Helper: priming the lexer over `MOV I, _start`. -/
theorem mi_prime :
    Assembler.with_table ("MOV I, _start".toList) AddrTable.new = some mi_state0 := rfl

/-- Helper: eating the MOV token of `MOV I, _start`. -/
theorem mi_eat_instr : mi_state0.eat .Instruction = .ok () mi_state1 := rfl

/-- Helper: eating the I register token of `MOV I, _start`. -/
theorem mi_eat_reg : mi_state1.eat .Register = .ok () mi_state2 := rfl

/-- Helper: eating the comma of `MOV I, _start`. -/
theorem mi_eat_comma : mi_state2.eat .Comma = .ok () mi_state3 := rfl

/-- Helper: eating the label token of `MOV I, _start`. -/
theorem mi_eat_label : mi_state3.eat .Label = .ok () mi_state4 := rfl

/-- Helper: `Assembler::instruction` on `MOV I, _start` with an arbitrary
Address Table is decided entirely by the table's entry for `_START`. -/
theorem mi_run (t : AddrTable) :
    mov_i_run t = (match t.get_entry "_START" with
      | .ok addr => .ok (.MOV (.with_constant .I addr)) (mi_state4.set_addrs t)
      | .error ae => .err (.Address ae)) := by
  have heat4 : (mi_state3.set_addrs t).eat .Label = .ok () (mi_state4.set_addrs t) := by
    rw [eat_set_addrs, mi_eat_label]
  have hlab : (mi_state3.set_addrs t).label = (match t.get_entry "_START" with
      | .ok addr => .ok addr (mi_state4.set_addrs t)
      | .error ae => .err (.Address ae)) := label_spec _ _ "_START" t rfl heat4 rfl
  simp only [mov_i_run]
  rw [with_table_set_addrs, mi_prime]
  show (mi_state0.set_addrs t).instruction = _
  simp only [Assembler.instruction]
  rw [eat_set_addrs, mi_eat_instr]
  dsimp only [PResult.bind]
  rw [show (mi_state0.set_addrs t).cur_token = ⟨.Instruction, .Text "MOV"⟩ from rfl]
  dsimp only [Variant.as_text]
  show (mi_state1.set_addrs t).instr_mov = _
  simp only [Assembler.instr_mov, Assembler.register]
  rw [eat_set_addrs, mi_eat_reg]
  dsimp only [PResult.bind]
  rw [show (mi_state1.set_addrs t).cur_token = ⟨.Register, .Text "I"⟩ from rfl]
  dsimp only [Variant.as_text]
  dsimp only [List.get?]
  simp only [reduceIte]
  rw [eat_set_addrs, mi_eat_comma]
  dsimp only [PResult.bind]
  rw [show (mi_state3.set_addrs t).cur_token = ⟨.Label, .Text "_START"⟩ from rfl]
  simp only [reduceCtorEq, reduceIte]
  simp only [ne_eq, not_true, reduceIte]
  rw [hlab]
  cases h : t.get_entry "_START" <;> rfl

/-- Helper: the harness text for `MOV Vd, _start` as an explicit list. -/
theorem mv_text_eq (d : Char) :
    "MOV V".toList ++ [d] ++ ", _start".toList = mov_v_text d := rfl

/-- Helper: current token of the primed state. -/
theorem mv_cur0 (d : Char) (t : AddrTable) :
    ((mv_state0 d).set_addrs t).cur_token = ⟨.Instruction, .Text "MOV"⟩ := rfl

/-- Helper: current token after the MOV mnemonic. -/
theorem mv_cur1 (d : Char) (t : AddrTable) :
    ((mv_state1 d).set_addrs t).cur_token = ⟨.Register, .Text ("V".push d)⟩ := rfl

/-- Helper: current token after the comma. -/
theorem mv_cur3 (d : Char) (t : AddrTable) :
    ((mv_state3 d).set_addrs t).cur_token = ⟨.Label, .Text "_START"⟩ := rfl

/-- Helper: first character of the register token text. -/
theorem mv_rchar0 (d : Char) : ("V".push d).data.get? 0 = some 'V' := rfl

/-- Helper: second character of the register token text. -/
theorem mv_rchar1 (d : Char) : ("V".push d).data.get? 1 = some d := rfl

theorem mvp_0 : Assembler.with_table (mov_v_text '0') AddrTable.new = some (mv_state0 '0') := rfl

theorem mve1_0 : (mv_state0 '0').eat .Instruction = .ok () (mv_state1 '0') := rfl

theorem mve2_0 : (mv_state1 '0').eat .Register = .ok () (mv_state2 '0') := rfl

theorem mve3_0 : (mv_state2 '0').eat .Comma = .ok () (mv_state3 '0') := rfl

theorem mvpt_0 (t : AddrTable) :
    Assembler.with_table (mov_v_text '0') t = some ((mv_state0 '0').set_addrs t) := by
  rw [with_table_set_addrs, mvp_0]; rfl

theorem mve1t_0 (t : AddrTable) :
    ((mv_state0 '0').set_addrs t).eat .Instruction = .ok () ((mv_state1 '0').set_addrs t) := by
  rw [eat_set_addrs, mve1_0]

theorem mve2t_0 (t : AddrTable) :
    ((mv_state1 '0').set_addrs t).eat .Register = .ok () ((mv_state2 '0').set_addrs t) := by
  rw [eat_set_addrs, mve2_0]

theorem mve3t_0 (t : AddrTable) :
    ((mv_state2 '0').set_addrs t).eat .Comma = .ok () ((mv_state3 '0').set_addrs t) := by
  rw [eat_set_addrs, mve3_0]

theorem mvp_1 : Assembler.with_table (mov_v_text '1') AddrTable.new = some (mv_state0 '1') := rfl

theorem mve1_1 : (mv_state0 '1').eat .Instruction = .ok () (mv_state1 '1') := rfl

theorem mve2_1 : (mv_state1 '1').eat .Register = .ok () (mv_state2 '1') := rfl

theorem mve3_1 : (mv_state2 '1').eat .Comma = .ok () (mv_state3 '1') := rfl

theorem mvpt_1 (t : AddrTable) :
    Assembler.with_table (mov_v_text '1') t = some ((mv_state0 '1').set_addrs t) := by
  rw [with_table_set_addrs, mvp_1]; rfl

theorem mve1t_1 (t : AddrTable) :
    ((mv_state0 '1').set_addrs t).eat .Instruction = .ok () ((mv_state1 '1').set_addrs t) := by
  rw [eat_set_addrs, mve1_1]

theorem mve2t_1 (t : AddrTable) :
    ((mv_state1 '1').set_addrs t).eat .Register = .ok () ((mv_state2 '1').set_addrs t) := by
  rw [eat_set_addrs, mve2_1]

theorem mve3t_1 (t : AddrTable) :
    ((mv_state2 '1').set_addrs t).eat .Comma = .ok () ((mv_state3 '1').set_addrs t) := by
  rw [eat_set_addrs, mve3_1]

theorem mvp_2 : Assembler.with_table (mov_v_text '2') AddrTable.new = some (mv_state0 '2') := rfl

theorem mve1_2 : (mv_state0 '2').eat .Instruction = .ok () (mv_state1 '2') := rfl

theorem mve2_2 : (mv_state1 '2').eat .Register = .ok () (mv_state2 '2') := rfl

theorem mve3_2 : (mv_state2 '2').eat .Comma = .ok () (mv_state3 '2') := rfl

theorem mvpt_2 (t : AddrTable) :
    Assembler.with_table (mov_v_text '2') t = some ((mv_state0 '2').set_addrs t) := by
  rw [with_table_set_addrs, mvp_2]; rfl

theorem mve1t_2 (t : AddrTable) :
    ((mv_state0 '2').set_addrs t).eat .Instruction = .ok () ((mv_state1 '2').set_addrs t) := by
  rw [eat_set_addrs, mve1_2]

theorem mve2t_2 (t : AddrTable) :
    ((mv_state1 '2').set_addrs t).eat .Register = .ok () ((mv_state2 '2').set_addrs t) := by
  rw [eat_set_addrs, mve2_2]

theorem mve3t_2 (t : AddrTable) :
    ((mv_state2 '2').set_addrs t).eat .Comma = .ok () ((mv_state3 '2').set_addrs t) := by
  rw [eat_set_addrs, mve3_2]

theorem mvp_3 : Assembler.with_table (mov_v_text '3') AddrTable.new = some (mv_state0 '3') := rfl

theorem mve1_3 : (mv_state0 '3').eat .Instruction = .ok () (mv_state1 '3') := rfl

theorem mve2_3 : (mv_state1 '3').eat .Register = .ok () (mv_state2 '3') := rfl

theorem mve3_3 : (mv_state2 '3').eat .Comma = .ok () (mv_state3 '3') := rfl

theorem mvpt_3 (t : AddrTable) :
    Assembler.with_table (mov_v_text '3') t = some ((mv_state0 '3').set_addrs t) := by
  rw [with_table_set_addrs, mvp_3]; rfl

theorem mve1t_3 (t : AddrTable) :
    ((mv_state0 '3').set_addrs t).eat .Instruction = .ok () ((mv_state1 '3').set_addrs t) := by
  rw [eat_set_addrs, mve1_3]

theorem mve2t_3 (t : AddrTable) :
    ((mv_state1 '3').set_addrs t).eat .Register = .ok () ((mv_state2 '3').set_addrs t) := by
  rw [eat_set_addrs, mve2_3]

theorem mve3t_3 (t : AddrTable) :
    ((mv_state2 '3').set_addrs t).eat .Comma = .ok () ((mv_state3 '3').set_addrs t) := by
  rw [eat_set_addrs, mve3_3]

theorem mvp_4 : Assembler.with_table (mov_v_text '4') AddrTable.new = some (mv_state0 '4') := rfl

theorem mve1_4 : (mv_state0 '4').eat .Instruction = .ok () (mv_state1 '4') := rfl

theorem mve2_4 : (mv_state1 '4').eat .Register = .ok () (mv_state2 '4') := rfl

theorem mve3_4 : (mv_state2 '4').eat .Comma = .ok () (mv_state3 '4') := rfl

theorem mvpt_4 (t : AddrTable) :
    Assembler.with_table (mov_v_text '4') t = some ((mv_state0 '4').set_addrs t) := by
  rw [with_table_set_addrs, mvp_4]; rfl

theorem mve1t_4 (t : AddrTable) :
    ((mv_state0 '4').set_addrs t).eat .Instruction = .ok () ((mv_state1 '4').set_addrs t) := by
  rw [eat_set_addrs, mve1_4]

theorem mve2t_4 (t : AddrTable) :
    ((mv_state1 '4').set_addrs t).eat .Register = .ok () ((mv_state2 '4').set_addrs t) := by
  rw [eat_set_addrs, mve2_4]

theorem mve3t_4 (t : AddrTable) :
    ((mv_state2 '4').set_addrs t).eat .Comma = .ok () ((mv_state3 '4').set_addrs t) := by
  rw [eat_set_addrs, mve3_4]

theorem mvp_5 : Assembler.with_table (mov_v_text '5') AddrTable.new = some (mv_state0 '5') := rfl

theorem mve1_5 : (mv_state0 '5').eat .Instruction = .ok () (mv_state1 '5') := rfl

theorem mve2_5 : (mv_state1 '5').eat .Register = .ok () (mv_state2 '5') := rfl

theorem mve3_5 : (mv_state2 '5').eat .Comma = .ok () (mv_state3 '5') := rfl

theorem mvpt_5 (t : AddrTable) :
    Assembler.with_table (mov_v_text '5') t = some ((mv_state0 '5').set_addrs t) := by
  rw [with_table_set_addrs, mvp_5]; rfl

theorem mve1t_5 (t : AddrTable) :
    ((mv_state0 '5').set_addrs t).eat .Instruction = .ok () ((mv_state1 '5').set_addrs t) := by
  rw [eat_set_addrs, mve1_5]

theorem mve2t_5 (t : AddrTable) :
    ((mv_state1 '5').set_addrs t).eat .Register = .ok () ((mv_state2 '5').set_addrs t) := by
  rw [eat_set_addrs, mve2_5]

theorem mve3t_5 (t : AddrTable) :
    ((mv_state2 '5').set_addrs t).eat .Comma = .ok () ((mv_state3 '5').set_addrs t) := by
  rw [eat_set_addrs, mve3_5]

theorem mvp_6 : Assembler.with_table (mov_v_text '6') AddrTable.new = some (mv_state0 '6') := rfl

theorem mve1_6 : (mv_state0 '6').eat .Instruction = .ok () (mv_state1 '6') := rfl

theorem mve2_6 : (mv_state1 '6').eat .Register = .ok () (mv_state2 '6') := rfl

theorem mve3_6 : (mv_state2 '6').eat .Comma = .ok () (mv_state3 '6') := rfl

theorem mvpt_6 (t : AddrTable) :
    Assembler.with_table (mov_v_text '6') t = some ((mv_state0 '6').set_addrs t) := by
  rw [with_table_set_addrs, mvp_6]; rfl

theorem mve1t_6 (t : AddrTable) :
    ((mv_state0 '6').set_addrs t).eat .Instruction = .ok () ((mv_state1 '6').set_addrs t) := by
  rw [eat_set_addrs, mve1_6]

theorem mve2t_6 (t : AddrTable) :
    ((mv_state1 '6').set_addrs t).eat .Register = .ok () ((mv_state2 '6').set_addrs t) := by
  rw [eat_set_addrs, mve2_6]

theorem mve3t_6 (t : AddrTable) :
    ((mv_state2 '6').set_addrs t).eat .Comma = .ok () ((mv_state3 '6').set_addrs t) := by
  rw [eat_set_addrs, mve3_6]

theorem mvp_7 : Assembler.with_table (mov_v_text '7') AddrTable.new = some (mv_state0 '7') := rfl

theorem mve1_7 : (mv_state0 '7').eat .Instruction = .ok () (mv_state1 '7') := rfl

theorem mve2_7 : (mv_state1 '7').eat .Register = .ok () (mv_state2 '7') := rfl

theorem mve3_7 : (mv_state2 '7').eat .Comma = .ok () (mv_state3 '7') := rfl

theorem mvpt_7 (t : AddrTable) :
    Assembler.with_table (mov_v_text '7') t = some ((mv_state0 '7').set_addrs t) := by
  rw [with_table_set_addrs, mvp_7]; rfl

theorem mve1t_7 (t : AddrTable) :
    ((mv_state0 '7').set_addrs t).eat .Instruction = .ok () ((mv_state1 '7').set_addrs t) := by
  rw [eat_set_addrs, mve1_7]

theorem mve2t_7 (t : AddrTable) :
    ((mv_state1 '7').set_addrs t).eat .Register = .ok () ((mv_state2 '7').set_addrs t) := by
  rw [eat_set_addrs, mve2_7]

theorem mve3t_7 (t : AddrTable) :
    ((mv_state2 '7').set_addrs t).eat .Comma = .ok () ((mv_state3 '7').set_addrs t) := by
  rw [eat_set_addrs, mve3_7]

theorem mvp_8 : Assembler.with_table (mov_v_text '8') AddrTable.new = some (mv_state0 '8') := rfl

theorem mve1_8 : (mv_state0 '8').eat .Instruction = .ok () (mv_state1 '8') := rfl

theorem mve2_8 : (mv_state1 '8').eat .Register = .ok () (mv_state2 '8') := rfl

theorem mve3_8 : (mv_state2 '8').eat .Comma = .ok () (mv_state3 '8') := rfl

theorem mvpt_8 (t : AddrTable) :
    Assembler.with_table (mov_v_text '8') t = some ((mv_state0 '8').set_addrs t) := by
  rw [with_table_set_addrs, mvp_8]; rfl

theorem mve1t_8 (t : AddrTable) :
    ((mv_state0 '8').set_addrs t).eat .Instruction = .ok () ((mv_state1 '8').set_addrs t) := by
  rw [eat_set_addrs, mve1_8]

theorem mve2t_8 (t : AddrTable) :
    ((mv_state1 '8').set_addrs t).eat .Register = .ok () ((mv_state2 '8').set_addrs t) := by
  rw [eat_set_addrs, mve2_8]

theorem mve3t_8 (t : AddrTable) :
    ((mv_state2 '8').set_addrs t).eat .Comma = .ok () ((mv_state3 '8').set_addrs t) := by
  rw [eat_set_addrs, mve3_8]

theorem mvp_9 : Assembler.with_table (mov_v_text '9') AddrTable.new = some (mv_state0 '9') := rfl

theorem mve1_9 : (mv_state0 '9').eat .Instruction = .ok () (mv_state1 '9') := rfl

theorem mve2_9 : (mv_state1 '9').eat .Register = .ok () (mv_state2 '9') := rfl

theorem mve3_9 : (mv_state2 '9').eat .Comma = .ok () (mv_state3 '9') := rfl

theorem mvpt_9 (t : AddrTable) :
    Assembler.with_table (mov_v_text '9') t = some ((mv_state0 '9').set_addrs t) := by
  rw [with_table_set_addrs, mvp_9]; rfl

theorem mve1t_9 (t : AddrTable) :
    ((mv_state0 '9').set_addrs t).eat .Instruction = .ok () ((mv_state1 '9').set_addrs t) := by
  rw [eat_set_addrs, mve1_9]

theorem mve2t_9 (t : AddrTable) :
    ((mv_state1 '9').set_addrs t).eat .Register = .ok () ((mv_state2 '9').set_addrs t) := by
  rw [eat_set_addrs, mve2_9]

theorem mve3t_9 (t : AddrTable) :
    ((mv_state2 '9').set_addrs t).eat .Comma = .ok () ((mv_state3 '9').set_addrs t) := by
  rw [eat_set_addrs, mve3_9]

theorem mvp_A : Assembler.with_table (mov_v_text 'A') AddrTable.new = some (mv_state0 'A') := rfl

theorem mve1_A : (mv_state0 'A').eat .Instruction = .ok () (mv_state1 'A') := rfl

theorem mve2_A : (mv_state1 'A').eat .Register = .ok () (mv_state2 'A') := rfl

theorem mve3_A : (mv_state2 'A').eat .Comma = .ok () (mv_state3 'A') := rfl

theorem mvpt_A (t : AddrTable) :
    Assembler.with_table (mov_v_text 'A') t = some ((mv_state0 'A').set_addrs t) := by
  rw [with_table_set_addrs, mvp_A]; rfl

theorem mve1t_A (t : AddrTable) :
    ((mv_state0 'A').set_addrs t).eat .Instruction = .ok () ((mv_state1 'A').set_addrs t) := by
  rw [eat_set_addrs, mve1_A]

theorem mve2t_A (t : AddrTable) :
    ((mv_state1 'A').set_addrs t).eat .Register = .ok () ((mv_state2 'A').set_addrs t) := by
  rw [eat_set_addrs, mve2_A]

theorem mve3t_A (t : AddrTable) :
    ((mv_state2 'A').set_addrs t).eat .Comma = .ok () ((mv_state3 'A').set_addrs t) := by
  rw [eat_set_addrs, mve3_A]

theorem mvp_B : Assembler.with_table (mov_v_text 'B') AddrTable.new = some (mv_state0 'B') := rfl

theorem mve1_B : (mv_state0 'B').eat .Instruction = .ok () (mv_state1 'B') := rfl

theorem mve2_B : (mv_state1 'B').eat .Register = .ok () (mv_state2 'B') := rfl

theorem mve3_B : (mv_state2 'B').eat .Comma = .ok () (mv_state3 'B') := rfl

theorem mvpt_B (t : AddrTable) :
    Assembler.with_table (mov_v_text 'B') t = some ((mv_state0 'B').set_addrs t) := by
  rw [with_table_set_addrs, mvp_B]; rfl

theorem mve1t_B (t : AddrTable) :
    ((mv_state0 'B').set_addrs t).eat .Instruction = .ok () ((mv_state1 'B').set_addrs t) := by
  rw [eat_set_addrs, mve1_B]

theorem mve2t_B (t : AddrTable) :
    ((mv_state1 'B').set_addrs t).eat .Register = .ok () ((mv_state2 'B').set_addrs t) := by
  rw [eat_set_addrs, mve2_B]

theorem mve3t_B (t : AddrTable) :
    ((mv_state2 'B').set_addrs t).eat .Comma = .ok () ((mv_state3 'B').set_addrs t) := by
  rw [eat_set_addrs, mve3_B]

theorem mvp_C : Assembler.with_table (mov_v_text 'C') AddrTable.new = some (mv_state0 'C') := rfl

theorem mve1_C : (mv_state0 'C').eat .Instruction = .ok () (mv_state1 'C') := rfl

theorem mve2_C : (mv_state1 'C').eat .Register = .ok () (mv_state2 'C') := rfl

theorem mve3_C : (mv_state2 'C').eat .Comma = .ok () (mv_state3 'C') := rfl

theorem mvpt_C (t : AddrTable) :
    Assembler.with_table (mov_v_text 'C') t = some ((mv_state0 'C').set_addrs t) := by
  rw [with_table_set_addrs, mvp_C]; rfl

theorem mve1t_C (t : AddrTable) :
    ((mv_state0 'C').set_addrs t).eat .Instruction = .ok () ((mv_state1 'C').set_addrs t) := by
  rw [eat_set_addrs, mve1_C]

theorem mve2t_C (t : AddrTable) :
    ((mv_state1 'C').set_addrs t).eat .Register = .ok () ((mv_state2 'C').set_addrs t) := by
  rw [eat_set_addrs, mve2_C]

theorem mve3t_C (t : AddrTable) :
    ((mv_state2 'C').set_addrs t).eat .Comma = .ok () ((mv_state3 'C').set_addrs t) := by
  rw [eat_set_addrs, mve3_C]

theorem mvp_D : Assembler.with_table (mov_v_text 'D') AddrTable.new = some (mv_state0 'D') := rfl

theorem mve1_D : (mv_state0 'D').eat .Instruction = .ok () (mv_state1 'D') := rfl

theorem mve2_D : (mv_state1 'D').eat .Register = .ok () (mv_state2 'D') := rfl

theorem mve3_D : (mv_state2 'D').eat .Comma = .ok () (mv_state3 'D') := rfl

theorem mvpt_D (t : AddrTable) :
    Assembler.with_table (mov_v_text 'D') t = some ((mv_state0 'D').set_addrs t) := by
  rw [with_table_set_addrs, mvp_D]; rfl

theorem mve1t_D (t : AddrTable) :
    ((mv_state0 'D').set_addrs t).eat .Instruction = .ok () ((mv_state1 'D').set_addrs t) := by
  rw [eat_set_addrs, mve1_D]

theorem mve2t_D (t : AddrTable) :
    ((mv_state1 'D').set_addrs t).eat .Register = .ok () ((mv_state2 'D').set_addrs t) := by
  rw [eat_set_addrs, mve2_D]

theorem mve3t_D (t : AddrTable) :
    ((mv_state2 'D').set_addrs t).eat .Comma = .ok () ((mv_state3 'D').set_addrs t) := by
  rw [eat_set_addrs, mve3_D]

theorem mvp_E : Assembler.with_table (mov_v_text 'E') AddrTable.new = some (mv_state0 'E') := rfl

theorem mve1_E : (mv_state0 'E').eat .Instruction = .ok () (mv_state1 'E') := rfl

theorem mve2_E : (mv_state1 'E').eat .Register = .ok () (mv_state2 'E') := rfl

theorem mve3_E : (mv_state2 'E').eat .Comma = .ok () (mv_state3 'E') := rfl

theorem mvpt_E (t : AddrTable) :
    Assembler.with_table (mov_v_text 'E') t = some ((mv_state0 'E').set_addrs t) := by
  rw [with_table_set_addrs, mvp_E]; rfl

theorem mve1t_E (t : AddrTable) :
    ((mv_state0 'E').set_addrs t).eat .Instruction = .ok () ((mv_state1 'E').set_addrs t) := by
  rw [eat_set_addrs, mve1_E]

theorem mve2t_E (t : AddrTable) :
    ((mv_state1 'E').set_addrs t).eat .Register = .ok () ((mv_state2 'E').set_addrs t) := by
  rw [eat_set_addrs, mve2_E]

theorem mve3t_E (t : AddrTable) :
    ((mv_state2 'E').set_addrs t).eat .Comma = .ok () ((mv_state3 'E').set_addrs t) := by
  rw [eat_set_addrs, mve3_E]

theorem mvp_F : Assembler.with_table (mov_v_text 'F') AddrTable.new = some (mv_state0 'F') := rfl

theorem mve1_F : (mv_state0 'F').eat .Instruction = .ok () (mv_state1 'F') := rfl

theorem mve2_F : (mv_state1 'F').eat .Register = .ok () (mv_state2 'F') := rfl

theorem mve3_F : (mv_state2 'F').eat .Comma = .ok () (mv_state3 'F') := rfl

theorem mvpt_F (t : AddrTable) :
    Assembler.with_table (mov_v_text 'F') t = some ((mv_state0 'F').set_addrs t) := by
  rw [with_table_set_addrs, mvp_F]; rfl

theorem mve1t_F (t : AddrTable) :
    ((mv_state0 'F').set_addrs t).eat .Instruction = .ok () ((mv_state1 'F').set_addrs t) := by
  rw [eat_set_addrs, mve1_F]

theorem mve2t_F (t : AddrTable) :
    ((mv_state1 'F').set_addrs t).eat .Register = .ok () ((mv_state2 'F').set_addrs t) := by
  rw [eat_set_addrs, mve2_F]

theorem mve3t_F (t : AddrTable) :
    ((mv_state2 'F').set_addrs t).eat .Comma = .ok () ((mv_state3 'F').set_addrs t) := by
  rw [eat_set_addrs, mve3_F]

/-- Helper: `Assembler::instruction` on `MOV Vd, _start` fails with the
MOV operand-legality error for every general register digit and every
Address Table — the table is never consulted. -/
theorem mv_run (t : AddrTable) (d : Char)
    (hd : d ∈ ['0', '1', '2', '3', '4', '5', '6', '7',
               '8', '9', 'A', 'B', 'C', 'D', 'E', 'F']) :
    mov_v_run t d = .err (.Argument ⟨reg_of_digit d, "MOV", 1, 14⟩) := by
  fin_cases hd <;>
    simp only [mov_v_run, mv_text_eq, Assembler.instruction, Assembler.instr_mov, Assembler.register,
    PResult.bind, Variant.as_text, mv_cur0, mv_cur1, mv_cur3, mv_rchar0, mv_rchar1,
    mvpt_0, mvpt_1, mvpt_2, mvpt_3, mvpt_4, mvpt_5, mvpt_6, mvpt_7, mvpt_8, mvpt_9, mvpt_A, mvpt_B, mvpt_C, mvpt_D, mvpt_E, mvpt_F,
    mve1t_0, mve1t_1, mve1t_2, mve1t_3, mve1t_4, mve1t_5, mve1t_6, mve1t_7, mve1t_8, mve1t_9, mve1t_A, mve1t_B, mve1t_C, mve1t_D, mve1t_E, mve1t_F,
    mve2t_0, mve2t_1, mve2t_2, mve2t_3, mve2t_4, mve2t_5, mve2t_6, mve2t_7, mve2t_8, mve2t_9, mve2t_A, mve2t_B, mve2t_C, mve2t_D, mve2t_E, mve2t_F,
    mve3t_0, mve3t_1, mve3t_2, mve3t_3, mve3t_4, mve3t_5, mve3t_6, mve3t_7, mve3t_8, mve3t_9, mve3t_A, mve3t_B, mve3t_C, mve3t_D, mve3t_E, mve3t_F,
    Char.reduceEq, String.reduceEq, reduceCtorEq, reduceIte, ne_eq,
    not_false_eq_true, not_true, reg_of_digit] <;>
    rfl

/-- C8: parsing `MOV Vd, _start` fails with an operand-legality error
naming MOV for every general register digit `d`, independently of the
Address Table (which is never consulted); parsing `MOV I, _start`
succeeds and produces the table's address for `_START` exactly when that
entry exists, and fails with the address-resolution error otherwise. -/
theorem c8_mov_label_operand_rules :
    ∀ (t : AddrTable) (d : Char),
      d ∈ ['0', '1', '2', '3', '4', '5', '6', '7',
           '8', '9', 'A', 'B', 'C', 'D', 'E', 'F'] →
      (mov_v_run t d = mov_v_run AddrTable.new d
        ∧ ∃ e : ArgError, mov_v_run t d = .err (.Argument e) ∧ e.instr = "MOV")
      ∧ (∀ v : Nat, t.get_entry "_START" = .ok v →
          ∃ s1, mov_i_run t = .ok (.MOV (.with_constant .I v)) s1)
      ∧ (∀ ae : AddrError, t.get_entry "_START" = .error ae →
          mov_i_run t = .err (.Address ae)) := by
  intro t d hd
  refine ⟨⟨?_, ?_⟩, ?_, ?_⟩
  · rw [mv_run t d hd, mv_run AddrTable.new d hd]
  · exact ⟨⟨reg_of_digit d, "MOV", 1, 14⟩, mv_run t d hd, rfl⟩
  · intro v hv
    rw [mi_run t, hv]
    exact ⟨_, rfl⟩
  · intro ae hae
    rw [mi_run t, hae]

/-- C8 witness: with the table defining `_START` at 0x300, `MOV V0, _start`
is the MOV operand-legality error and matches the empty-table run, while
`MOV I, _start` succeeds with constant 0x300. -/
theorem c8_witness :
    (mov_v_run ⟨1, [("_START", 768)]⟩ '0' = mov_v_run AddrTable.new '0')
    ∧ (∃ s1, mov_i_run ⟨1, [("_START", 768)]⟩
        = .ok (.MOV (.with_constant .I 768)) s1) := by
  refine ⟨?_, ?_⟩
  · exact (c8_mov_label_operand_rules ⟨1, [("_START", 768)]⟩ '0' (by decide)).1.1
  · exact (c8_mov_label_operand_rules ⟨1, [("_START", 768)]⟩ '0' (by decide)).2.1 768 rfl

/-- Helper: reading the head of a dropped suffix. -/
theorem drop_cons_head :
    ∀ (text : List Char) (p : Nat) (r : Char) (rs : List Char),
      text.drop p = r :: rs →
      text.getD p '\x00' = r ∧ p < text.length ∧ text.drop (p + 1) = rs := by
  intro text
  induction text with
  | nil => intro p r rs h; simp at h
  | cons a tl ih =>
    intro p r rs h
    cases p with
    | zero =>
      simp only [List.drop_zero] at h
      cases h
      exact ⟨rfl, by simp, by simp⟩
    | succ n =>
      simp only [List.drop_succ_cons] at h
      obtain ⟨h1, h2, h3⟩ := ih n r rs h
      refine ⟨by simpa using h1, by simpa using h2, by simpa using h3⟩

/-- Helper: the digit-collection loop of `consume_dec_lit` consumes
exactly the maximal digit run in front of it and nothing else. -/
theorem dec_sum_loop_collect :
    ∀ (digits : List Char) (fuel : Nat) (text : List Char) (p : Nat) (sum : String)
      (rest : List Char) (line col ad nib : Nat),
      text.drop p = digits ++ rest →
      digits.all isAsciiDigit = true →
      (∀ r rs, rest = r :: rs → isAsciiDigit r = false) →
      digits.length < fuel →
      PrepLexer.dec_sum_loop fuel
          ⟨text, (if p > text.length - 1 then '\x00' else text.getD p '\x00'),
           p, line, col, ad, nib⟩ sum
        = (⟨sum.data ++ digits⟩,
           ⟨text, (if p + digits.length > text.length - 1 then '\x00'
                   else text.getD (p + digits.length) '\x00'),
            p + digits.length, line, col, ad, nib⟩) := by
  intro digits
  induction digits with
  | nil =>
    intro fuel text p sum rest line col ad nib hdrop _ hrest hfuel
    cases fuel with
    | zero => omega
    | succ n =>
      have hnd : isAsciiDigit
          (if p > text.length - 1 then '\x00' else text.getD p '\x00') = false := by
        cases rest with
        | nil =>
          simp only [List.nil_append] at hdrop
          have hlen : text.length ≤ p := List.drop_eq_nil_iff.mp hdrop
          split
          · decide
          · rw [List.getD_eq_default _ _ (by omega)]; decide
        | cons r rs =>
          simp only [List.nil_append] at hdrop
          obtain ⟨h1, h2, _⟩ := drop_cons_head text p r rs hdrop
          rw [if_neg (by omega), h1]
          exact hrest r rs rfl
      simp only [PrepLexer.dec_sum_loop, hnd, Bool.false_eq_true, if_false]
      simp
  | cons d ds ih =>
    intro fuel text p sum rest line col ad nib hdrop hall hrest hfuel
    cases fuel with
    | zero => simp at hfuel
    | succ n =>
      have hdc : text.drop p = d :: (ds ++ rest) := by simpa using hdrop
      obtain ⟨h1, h2, h3⟩ := drop_cons_head text p d (ds ++ rest) hdc
      have hcur : (if p > text.length - 1 then '\x00' else text.getD p '\x00') = d := by
        rw [if_neg (by omega), h1]
      have hdd : isAsciiDigit d = true := by
        simp only [List.all_cons, Bool.and_eq_true] at hall
        exact hall.1
      simp only [PrepLexer.dec_sum_loop, hcur, hdd, if_true]
      have hadv : PrepLexer.advance ⟨text, d, p, line, col, ad, nib⟩
          = ⟨text, (if p + 1 > text.length - 1 then '\x00' else text.getD (p + 1) '\x00'),
             p + 1, line, col, ad, nib⟩ := by
        unfold PrepLexer.advance
        dsimp only
        split_ifs <;> rfl
      rw [hadv]
      have hall2 : ds.all isAsciiDigit = true := by
        simp only [List.all_cons, Bool.and_eq_true] at hall
        exact hall.2
      rw [ih n text (p + 1) (sum.push d) rest line col ad nib h3 hall2 hrest
        (by simpa using hfuel)]
      have hlen : p + (d :: ds).length = p + 1 + ds.length := by
        simp only [List.length_cons]
        omega
      have hlist : (sum.data ++ [d]) ++ ds = sum.data ++ d :: ds := by
        rw [List.append_assoc, List.singleton_append]
      have hpush : (sum.push d).data = sum.data ++ [d] := rfl
      rw [hlen, hpush, hlist]

/-- C7 (amended): for every decimal literal whose written digits denote
a value `v` in the unsigned 16-bit range (where the source's 32-bit
float parse/log2/ceil pipeline computes exact results — see
`ceilLog2_go`), Pass 1's `consume_dec_lit` charges
`ceil(ceil(log2 v) / 4)` nibbles and advances past exactly the digit
run.  This charge is zero for `#1` and two for `#256`, not the minimum
representable nibble width at those values. -/
theorem c7_dec_lit_charge_formula :
    ∀ (text digits rest : List Char) (p : Nat) (c : Char) (line col ad nib fuel : Nat),
      text.drop (p + 1) = digits ++ rest →
      digits ≠ [] →
      digits.all isAsciiDigit = true →
      digitsVal digits ≤ 65535 →
      (∀ r rs, rest = r :: rs → isAsciiDigit r = false) →
      digits.length < fuel →
      PrepLexer.consume_dec_lit fuel ⟨text, c, p, line, col, ad, nib⟩
        = some ⟨text, (if p + 1 + digits.length > text.length - 1 then '\x00'
                       else text.getD (p + 1 + digits.length) '\x00'),
               p + 1 + digits.length, line, col, ad,
               nib + (ceilLog2 (digitsVal digits) + 3) / 4⟩ := by
  intro text digits rest p c line col ad nib fuel hdrop hne hall _hval hrest hfuel
  unfold PrepLexer.consume_dec_lit
  have hadv : PrepLexer.advance ⟨text, c, p, line, col, ad, nib⟩
      = ⟨text, (if p + 1 > text.length - 1 then '\x00' else text.getD (p + 1) '\x00'),
         p + 1, line, col, ad, nib⟩ := by
    unfold PrepLexer.advance
    dsimp only
    split_ifs <;> rfl
  rw [hadv]
  dsimp only
  rw [dec_sum_loop_collect digits fuel text (p + 1) "" rest line col ad nib hdrop hall
    hrest hfuel]
  dsimp only
  rw [show (("" : String).data ++ digits) = digits from rfl]
  rw [if_neg hne]

/-- C7 witness: consuming the literal `#1` charges zero nibbles — the
formula value `ceil(ceil(log2 1) / 4) = 0`. -/
theorem c7_dec_lit_charge_formula_witness :
    PrepLexer.consume_dec_lit 5 ⟨"#1".toList, '#', 0, 1, 1, 512, 0⟩
      = some ⟨"#1".toList, '\x00', 2, 1, 1, 512, 0⟩ := by
  have h := c7_dec_lit_charge_formula ("#1".toList) ['1'] [] 0 '#' 1 1 512 0 5 rfl
    (by decide) (by decide) (by decide) (fun r rs hh => nomatch hh) (by decide)
  exact h.trans rfl

/-- C7 counterexample: the literal `#256` is charged 2 nibbles by the
code, while the minimum nibble width able to represent 256 (= 0x100) is
3; likewise `#1` is charged 0 nibbles, not 1. -/
theorem c7_dec_lit_counterexample :
    (∃ s1, PrepLexer.consume_dec_lit 6 ⟨"#256".toList, '#', 0, 1, 1, 512, 0⟩ = some s1
       ∧ s1.nib_count = 2)
    ∧ spec_minNibbleWidth 256 = 3
    ∧ (∃ s1, PrepLexer.consume_dec_lit 6 ⟨"#1".toList, '#', 0, 1, 1, 512, 0⟩ = some s1
       ∧ s1.nib_count = 0)
    ∧ spec_minNibbleWidth 1 = 1 :=
  ⟨⟨_, rfl, rfl⟩, rfl, ⟨_, rfl, rfl⟩, rfl⟩

/-- Helper: a successful preprocessor run extends the entry list, and the
table accumulates exactly those entries (most recent first). -/
theorem process_loop_ok_data :
    ∀ (fuel : Nat) (s : PrepLexer) (t : AddrTable) (es : List (String × Nat))
      (t' : AddrTable) (es' : List (String × Nat)),
      Preprocessor.process_loop fuel s t es = .ok t' es' →
      ∃ suf, es' = es ++ suf ∧ t'.data = suf.reverse ++ t.data := by
  intro fuel
  induction fuel with
  | zero =>
    intro s t es t' es' h
    simp [Preprocessor.process_loop] at h
  | succ n ih =>
    intro s t es t' es' h
    simp only [Preprocessor.process_loop] at h
    split at h
    case _ tok s1 heq =>
      split at h
      case _ =>
        cases h
        exact ⟨[], by simp, by simp⟩
      case _ =>
        split at h
        case _ lbl hlbl =>
          obtain ⟨suf, h1, h2⟩ := ih _ _ _ _ _ h
          refine ⟨(upperText lbl, s1.addr) :: suf, ?_, ?_⟩
          · rw [h1, List.append_assoc, List.singleton_append]
          · rw [h2, List.reverse_cons, List.append_assoc]
            simp [AddrTable.add_entry]
        case _ => cases h
      case _ =>
        exact ih _ _ _ _ _ h
    case _ => cases h
    case _ => cases h
    case _ => cases h

/-- Helper: association lookup distributes over append. -/
theorem lookup_append_str (l1 l2 : List (String × Nat)) (k : String) :
    (l1 ++ l2).lookup k = (match l1.lookup k with
      | some v => some v
      | none => l2.lookup k) := by
  induction l1 with
  | nil => simp [List.lookup]
  | cons p tl ih =>
    obtain ⟨a, b⟩ := p
    cases hk : k == a <;> simp [List.lookup, hk, ih]

/-- Helper: lookup misses when no key matches. -/
theorem lookup_none_str (l : List (String × Nat)) (k : String)
    (h : ∀ p ∈ l, (k == p.1) = false) : l.lookup k = none := by
  induction l with
  | nil => rfl
  | cons p tl ih =>
    obtain ⟨a, b⟩ := p
    have ha : (k == a) = false := h (a, b) (by simp)
    simp only [List.lookup, ha]
    exact ih (fun q hq => h q (by simp [hq]))

/-- Helper: when a key is recorded exactly once, looking it up from
either end finds that record. -/
theorem lookup_reverse_single (es : List (String × Nat)) (L : String) (a : Nat)
    (h : es.filter (fun p => L == p.1) = [(L, a)]) :
    es.reverse.lookup L = some a := by
  induction es with
  | nil => simp at h
  | cons p tl ih =>
    obtain ⟨kk, v⟩ := p
    rw [List.reverse_cons, lookup_append_str]
    cases hk : L == kk with
    | false =>
      have h' : tl.filter (fun p => L == p.1) = [(L, a)] := by
        simpa [List.filter, hk] using h
      rw [ih h']
    | true =>
      simp only [List.filter, hk] at h
      obtain ⟨h1, h2⟩ := List.cons_eq_cons.mp h
      injection h1 with hkk hv
      have hnone : tl.reverse.lookup L = none :=
        lookup_none_str _ _ (fun q hq => by
          have hmem := List.mem_reverse.mp hq
          have hnq := List.filter_eq_nil_iff.mp h2 q hmem
          exact Bool.eq_false_iff.mpr hnq)
      rw [hnone]
      simp [List.lookup, hk, hv]
/-- Helper: an ASCII letter is neither the NUL sentinel nor whitespace. -/
theorem alpha_props (c : Char) (h : isAsciiAlphabetic c = true) :
    c ≠ '\x00' ∧ isAsciiWhitespace c = false := by
  simp only [isAsciiAlphabetic, Bool.or_eq_true, Bool.and_eq_true,
    decide_eq_true_eq] at h
  constructor
  · intro he
    rw [he] at h
    exact absurd h (by decide)
  · simp only [isAsciiWhitespace, Bool.or_eq_false_iff, decide_eq_false_iff_not]
    omega

/-- Helper: a successful `eat` leaves the Address Table untouched. -/
theorem eat_ok_addrs (s : Assembler) (tt : TokenType) (a : Unit) (s1 : Assembler)
    (h : s.eat tt = .ok a s1) : s1.addrs = s.addrs := by
  unfold Assembler.eat at h
  split at h
  · split at h
    case _ => cases h; rfl
    case _ => cases h
    case _ => cases h
    case _ => cases h
  · cases h

/-- Helper: whenever Pass 2 successfully resolves a Label token with text
`L`, the value it returns is exactly the Address Table entry for `L`. -/
theorem assembler_label_ok (st : Assembler) (L : String) (v : Nat) (s1 : Assembler)
    (hct : st.cur_token.value = .Text L)
    (h : st.label = .ok v s1) : st.addrs.get_entry L = .ok v := by
  unfold Assembler.label at h
  cases heat : st.eat .Label with
  | ok a s2 =>
    rw [heat] at h
    dsimp only [PResult.bind] at h
    rw [hct] at h
    dsimp only [Variant.as_text] at h
    cases hg : s2.addrs.get_entry L with
    | ok addr =>
      rw [hg] at h
      cases h
      rw [← eat_ok_addrs _ _ _ _ heat]
      exact hg
    | error ae =>
      rw [hg] at h
      cases h
  | err e => rw [heat] at h; cases h
  | panicked => rw [heat] at h; cases h
  | outOfFuel => rw [heat] at h; cases h
/-- Helper: `upperText` maps over a pushed character. -/
theorem upperText_push (s : String) (c : Char) :
    upperText (s.push c) = (upperText s).push (asciiUpper c) := by
  simp [upperText, String.push]

/-- Helper: the label-collection loops of the two lexers, started on the
same text position, collect the same characters — Pass 2's upper-cased,
Pass 1's in original case — and stop at the same place. -/
theorem label_loop_lockstep :
    ∀ (fuel : Nat) (text : List Char) (p : Nat) (c : Char)
      (lA cA lP cP ad nb : Nat) (accA accP : String),
      accA = upperText accP →
      (AsmLexer.label_loop fuel ⟨text, p, c, lA, cA⟩ accA).1
          = upperText ((PrepLexer.consume_label_loop fuel ⟨text, c, p, lP, cP, ad, nb⟩ accP).1)
      ∧ (AsmLexer.label_loop fuel ⟨text, p, c, lA, cA⟩ accA).2.cur_char
          = (PrepLexer.consume_label_loop fuel ⟨text, c, p, lP, cP, ad, nb⟩ accP).2.cur_char := by
  intro fuel
  induction fuel with
  | zero =>
    intro text p c lA cA lP cP ad nb accA accP hacc
    exact ⟨hacc, rfl⟩
  | succ n ih =>
    intro text p c lA cA lP cP ad nb accA accP hacc
    by_cases hal : isAsciiAlphabetic c = true
    · obtain ⟨hnz, hws⟩ := alpha_props c hal
      have hcondA : (isAsciiAlphabetic c = true ∧ c ≠ '\x00') := ⟨hal, hnz⟩
      have hcondP : (isAsciiAlphabetic c = true ∧ ¬ isAsciiWhitespace c = true) := by
        exact ⟨hal, by simp [hws]⟩
      rw [show AsmLexer.label_loop (n + 1) ⟨text, p, c, lA, cA⟩ accA
          = AsmLexer.label_loop n (AsmLexer.advance ⟨text, p, c, lA, cA⟩)
              (accA.push (asciiUpper c)) from by
        simp [AsmLexer.label_loop, hcondA.1, hcondA.2]]
      rw [show PrepLexer.consume_label_loop (n + 1) ⟨text, c, p, lP, cP, ad, nb⟩ accP
          = PrepLexer.consume_label_loop n (PrepLexer.advance ⟨text, c, p, lP, cP, ad, nb⟩)
              (accP.push c) from by
        simp [PrepLexer.consume_label_loop, hal, hws]]
      have hadvA : AsmLexer.advance ⟨text, p, c, lA, cA⟩
          = ⟨text, p + 1, (if p + 1 > text.length - 1 then '\x00' else text.getD (p + 1) '\x00'),
             lA, (if p + 1 > text.length - 1 then cA else cA + 1)⟩ := by
        unfold AsmLexer.advance
        dsimp only
        split_ifs <;> rfl
      have hadvP : PrepLexer.advance ⟨text, c, p, lP, cP, ad, nb⟩
          = ⟨text, (if p + 1 > text.length - 1 then '\x00' else text.getD (p + 1) '\x00'),
             p + 1, lP, cP, ad, nb⟩ := by
        unfold PrepLexer.advance
        dsimp only
        split_ifs <;> rfl
      rw [hadvA, hadvP]
      exact ih text (p + 1) _ lA _ lP cP ad nb _ _ (by rw [upperText_push, hacc])
    · have hal' : isAsciiAlphabetic c = false := by
        cases hfact : isAsciiAlphabetic c
        · rfl
        · exact absurd hfact hal
      constructor
      · simp [AsmLexer.label_loop, PrepLexer.consume_label_loop, hal', hacc]
      · simp [AsmLexer.label_loop, PrepLexer.consume_label_loop, hal']
/-- Helper: scanning one label occurrence, the assembly lexer's token
text is exactly the uppercase image of the text the preprocessing lexer
collects at the same position. -/
theorem label_fn_lockstep (fuel : Nat) (text : List Char) (p : Nat) (c : Char)
    (lA cA lP cP ad nb : Nat) :
    (AsmLexer.label fuel ⟨text, p, c, lA, cA⟩).1
      = upperText ((PrepLexer.consume_label fuel ⟨text, c, p, lP, cP, ad, nb⟩).1) := by
  unfold AsmLexer.label PrepLexer.consume_label
  have hadvA : AsmLexer.advance ⟨text, p, c, lA, cA⟩
      = ⟨text, p + 1, (if p + 1 > text.length - 1 then '\x00' else text.getD (p + 1) '\x00'),
         lA, (if p + 1 > text.length - 1 then cA else cA + 1)⟩ := by
    unfold AsmLexer.advance
    dsimp only
    split_ifs <;> rfl
  have hadvP : PrepLexer.advance ⟨text, c, p, lP, cP, ad, nb⟩
      = ⟨text, (if p + 1 > text.length - 1 then '\x00' else text.getD (p + 1) '\x00'),
         p + 1, lP, cP, ad, nb⟩ := by
    unfold PrepLexer.advance
    dsimp only
    split_ifs <;> rfl
  rw [hadvA, hadvP]
  obtain ⟨h1, h2⟩ := label_loop_lockstep fuel text (p + 1)
    (if p + 1 > text.length - 1 then '\x00' else text.getD (p + 1) '\x00')
    lA (if p + 1 > text.length - 1 then cA else cA + 1) lP cP ad nb "_" "_" (by rfl)
  rcases hA : AsmLexer.label_loop fuel
      ⟨text, p + 1, (if p + 1 > text.length - 1 then '\x00' else text.getD (p + 1) '\x00'),
       lA, (if p + 1 > text.length - 1 then cA else cA + 1)⟩ "_" with ⟨retA, sA2⟩
  rcases hP : PrepLexer.consume_label_loop fuel
      ⟨text, (if p + 1 > text.length - 1 then '\x00' else text.getD (p + 1) '\x00'),
       p + 1, lP, cP, ad, nb⟩ "_" with ⟨retP, sP2⟩
  dsimp only at h1 h2 ⊢
  rw [hA, hP] at h1 h2
  rw [hA, hP]
  dsimp only at h1 h2 ⊢
  rw [h2]
  have hcolon : asciiUpper ':' = ':' := rfl
  by_cases hc : sP2.cur_char = ':'
  · simp [hc, h1, upperText_push, hcolon]
  · simp [hc, h1]
/-- C1: (1) for a label recorded exactly once by Pass 1, the Address
Table lookup that Pass 2 performs returns exactly the recorded address;
(2) at any source position, the label text Pass 2's lexer produces is the
uppercase image of the label text Pass 1's lexer scans there, so the two
passes agree on the case-normalized uppercase table key — in particular
for labels written in lowercase; (3) whenever Pass 2 resolves a label
reference successfully, the address obtained is exactly the table's entry
for that key. -/
theorem c1_label_address_agreement :
    (∀ (src : List Char) (t : AddrTable) (es : List (String × Nat)) (L : String) (a : Nat),
        pass1 src = .ok t es →
        es.filter (fun p => L == p.1) = [(L, a)] →
        t.get_entry L = .ok a)
    ∧ (∀ (fuel : Nat) (text : List Char) (p : Nat) (c : Char) (lA cA lP cP ad nb : Nat),
        (AsmLexer.label fuel ⟨text, p, c, lA, cA⟩).1
          = upperText ((PrepLexer.consume_label fuel ⟨text, c, p, lP, cP, ad, nb⟩).1))
    ∧ (∀ (st : Assembler) (L : String) (v : Nat) (s1 : Assembler),
        st.cur_token.value = .Text L →
        st.label = .ok v s1 →
        st.addrs.get_entry L = .ok v) := by
  refine ⟨?_, label_fn_lockstep, assembler_label_ok⟩
  intro src t es L a hp hf
  unfold pass1 at hp
  cases hn : PrepLexer.new src with
  | none => rw [hn] at hp; cases hp
  | some s =>
    rw [hn] at hp
    obtain ⟨suf, h1, h2⟩ := process_loop_ok_data _ _ _ _ _ _ hp
    have hdata : t.data = es.reverse := by
      rw [h2, h1]
      simp [AddrTable.new]
    unfold AddrTable.get_entry
    rw [hdata, lookup_reverse_single es L a hf]

/-- C1 witness: on the source `_abc: CLS` (a lowercase label), Pass 1
records `_ABC` at 0x200, and Pass 2's lookup of the uppercased reference
returns that address. -/
theorem c1_witness :
    AddrTable.get_entry ⟨1, [("_ABC", 512)]⟩ "_ABC" = .ok 512
    ∧ (AsmLexer.label 11 ⟨"_abc: CLS".toList, 0, '_', 1, 1⟩).1
        = upperText ((PrepLexer.consume_label 11 ⟨"_abc: CLS".toList, '_', 0, 1, 1, 512, 0⟩).1)
    ∧ AddrTable.get_entry
        (⟨⟨['_'], 1, '\x00', 1, 1⟩, ⟨1, [("_ABC", 512)]⟩,
          ⟨.Label, .Text "_ABC"⟩, ⟨"out", []⟩⟩ : Assembler).addrs "_ABC" = .ok 512 := by
  refine ⟨?_, ?_, ?_⟩
  · exact c1_label_address_agreement.1 ("_abc: CLS".toList) ⟨1, [("_ABC", 512)]⟩
      [("_ABC", 512)] "_ABC" 512 rfl rfl
  · exact c1_label_address_agreement.2.1 11 ("_abc: CLS".toList) 0 '_' 1 1 1 1 512 0
  · exact c1_label_address_agreement.2.2
      ⟨⟨['_'], 1, '\x00', 1, 1⟩, ⟨1, [("_ABC", 512)]⟩, ⟨.Label, .Text "_ABC"⟩, ⟨"out", []⟩⟩
      "_ABC" 512
      ⟨⟨['_'], 1, '\x00', 1, 1⟩, ⟨1, [("_ABC", 512)]⟩, ⟨.EndOfInput, .Text ""⟩, ⟨"out", []⟩⟩
      rfl rfl

end Ch8
